import Mathlib

/-!
Verification of the opencode-remote device-authentication core.

The TypeScript sources are shallowly embedded in Lean.  JavaScript strings
are represented as their byte sequences (`List Nat`, each element `< 256`);
all string manipulation of the sources (split, concat, base64, JSON, HMAC)
is modelled byte by byte.  `Date.now()` is an explicit `nowMs : Nat`
parameter.  The persistent store is modelled in memory: `ensureFresh` /
`reload` re-read the same snapshot that was last written, so they are the
identity in a single-writer run, which is the consistency model the source
documents.  `JSON.parse` is modelled by a parser for the flat-object
fragment of JSON actually exchanged by the code (string and integer
members, no whitespace), and `JSON.stringify` by the corresponding
renderer.
-/

set_option maxRecDepth 40000

/-- Bytes of a JavaScript string (the embedding represents JS strings as
their UTF-8 byte sequences). -/
abbrev JStr := List Nat

/-- Byte sequence of an ASCII string literal. -/
def ascii (s : String) : JStr := s.toList.map Char.toNat

/-- All elements are genuine bytes. -/
def ByteOk (s : JStr) : Prop := ∀ b ∈ s, b < 256

instance : DecidablePred ByteOk := fun s =>
  inferInstanceAs (Decidable (∀ b ∈ s, b < 256))

/-! ## SHA-256 (crypto.createHash("sha256") / createHmac("sha256")) -/

/-- Truncation to a 32-bit word. -/
def w32 (x : Nat) : Nat := x % 4294967296

/-- Right rotation of a 32-bit word. -/
def rotr (n x : Nat) : Nat := (x / 2 ^ n) + (x % 2 ^ n) * 2 ^ (32 - n)

def bsig0 (x : Nat) : Nat := (rotr 2 x) ^^^ (rotr 13 x) ^^^ (rotr 22 x)

def bsig1 (x : Nat) : Nat := (rotr 6 x) ^^^ (rotr 11 x) ^^^ (rotr 25 x)

def ssig0 (x : Nat) : Nat := (rotr 7 x) ^^^ (rotr 18 x) ^^^ (x / 8)

def ssig1 (x : Nat) : Nat := (rotr 17 x) ^^^ (rotr 19 x) ^^^ (x / 1024)

def chf (x y z : Nat) : Nat := (x &&& y) ^^^ ((4294967295 ^^^ x) &&& z)

def majf (x y z : Nat) : Nat := (x &&& y) ^^^ (x &&& z) ^^^ (y &&& z)

/-- The 64 SHA-256 round constants. -/
def shaK : List Nat :=
  [1116352408, 1899447441, 3049323471, 3921009573, 961987163, 1508970993, 2453635748, 2870763221,
   3624381080, 310598401, 607225278, 1426881987, 1925078388, 2162078206, 2614888103, 3248222580,
   3835390401, 4022224774, 264347078, 604807628, 770255983, 1249150122, 1555081692, 1996064986,
   2554220882, 2821834349, 2952996808, 3210313671, 3336571891, 3584528711, 113926993, 338241895,
   666307205, 773529912, 1294757372, 1396182291, 1695183700, 1986661051, 2177026350, 2456956037,
   2730485921, 2820302411, 3259730800, 3345764771, 3516065817, 3600352804, 4094571909, 275423344,
   430227734, 506948616, 659060556, 883997877, 958139571, 1322822218, 1537002063, 1747873779,
   1955562222, 2024104815, 2227730452, 2361852424, 2428436474, 2756734187, 3204031479, 3329325298]

/-- The SHA-256 initial hash value. -/
def shaH0 : List Nat :=
  [1779033703, 3144134277, 1013904242, 2773480762, 1359893119, 2600822924, 528734635, 1541459225]

/-- Message-schedule extension; the accumulator is kept most-recent-first. -/
def extendW : Nat → List Nat → List Nat
  | 0, acc => acc
  | n + 1, acc =>
    extendW n (w32 (ssig1 (acc.getD 1 0) + acc.getD 6 0 + ssig0 (acc.getD 14 0) + acc.getD 15 0) :: acc)

/-- Big-endian 32-bit words of a byte sequence. -/
def toWords : List Nat → List Nat
  | b0 :: b1 :: b2 :: b3 :: rest => (b0 * 16777216 + b1 * 65536 + b2 * 256 + b3) :: toWords rest
  | _ => []

/-- One SHA-256 round on the eight-word working state. -/
def roundStep (st : List Nat) (kw : Nat × Nat) : List Nat :=
  match st with
  | [a, b, c, d, e, f, g, h] =>
    let t1 := w32 (h + bsig1 e + chf e f g + kw.1 + kw.2)
    let t2 := w32 (bsig0 a + majf a b c)
    [w32 (t1 + t2), a, b, c, w32 (d + t1), e, f, g]
  | other => other

/-- Compression of one 64-byte block into the running hash. -/
def compressBlock (H : List Nat) (block : List Nat) : List Nat :=
  let ws := (extendW 48 (toWords block).reverse).reverse
  let st := (ws.zip shaK |>.map (fun p => (p.2, p.1))).foldl roundStep H
  (H.zip st).map (fun p => w32 (p.1 + p.2))

/-- Block iteration, fuelled so that it reduces inside the kernel; the fuel
is always at least the number of blocks. -/
def processBlocksF : Nat → List Nat → List Nat → List Nat
  | 0, H, _ => H
  | _, H, [] => H
  | fuel + 1, H, b :: rest =>
    processBlocksF fuel (compressBlock H ((b :: rest).take 64)) ((b :: rest).drop 64)

/-- Big-endian 64-bit length field. -/
def be64 (n : Nat) : List Nat :=
  [n / 2 ^ 56 % 256, n / 2 ^ 48 % 256, n / 2 ^ 40 % 256, n / 2 ^ 32 % 256,
   n / 2 ^ 24 % 256, n / 2 ^ 16 % 256, n / 2 ^ 8 % 256, n % 256]

/-- SHA-256 padding: 128, zeros to 56 mod 64, then the bit length. -/
def padMessage (msg : List Nat) : List Nat :=
  msg ++ 128 :: List.replicate ((119 - msg.length % 64) % 64) 0 ++ be64 (8 * msg.length)

/-- Big-endian bytes of a 32-bit word. -/
def wordBytes (w : Nat) : List Nat := [w / 16777216 % 256, w / 65536 % 256, w / 256 % 256, w % 256]

/-- SHA-256 digest (32 bytes) of a byte sequence. -/
def sha256 (msg : List Nat) : List Nat :=
  let padded := padMessage msg
  (processBlocksF padded.length shaH0 padded).foldr (fun w acc => wordBytes w ++ acc) []

/-! ## Hex digests and hex parsing -/

/-- Lowercase hex digit. -/
def hexLower (d : Nat) : Nat := if d < 10 then 48 + d else 87 + d

/-- Lowercase hex rendering of a byte sequence (Buffer.toString("hex")). -/
def hexDigest : List Nat → List Nat
  | [] => []
  | b :: rest => hexLower (b / 16) :: hexLower (b % 16) :: hexDigest rest

/-- Numeric value of one hex character. -/
def hexCharVal (c : Nat) : Nat :=
  if 48 ≤ c ∧ c ≤ 57 then c - 48
  else if 97 ≤ c ∧ c ≤ 102 then c - 87
  else if 65 ≤ c ∧ c ≤ 70 then c - 55
  else 0

/-- Value of a hex string (parseInt(s, 16) on all-valid input, which is the
only way the source uses it). -/
def parseHexNat (s : List Nat) : Nat := s.foldl (fun a c => 16 * a + hexCharVal c) 0

/-! ## base64url (Buffer base64 plus the source's character swaps) -/

/-- base64 character of a sextet, url-safe alphabet ('-' and '_'). -/
def b64Char (x : Nat) : Nat :=
  if x < 26 then 65 + x
  else if x < 52 then 71 + x
  else if x < 62 then x - 4
  else if x = 62 then 45
  else 95

/-- Sextet of a base64 character; accepts both the url-safe and the standard
alphabet, mirroring base64UrlDecode's '-'→'+', '_'→'/' swap followed by
Buffer base64 decoding.  Other characters are skipped, as Buffer does. -/
def b64Sext (c : Nat) : Option Nat :=
  if 65 ≤ c ∧ c ≤ 90 then some (c - 65)
  else if 97 ≤ c ∧ c ≤ 122 then some (c - 71)
  else if 48 ≤ c ∧ c ≤ 57 then some (c + 4)
  else if c = 45 ∨ c = 43 then some 62
  else if c = 95 ∨ c = 47 then some 63
  else none

/-- base64url encoding without padding: base64UrlEncode does standard base64
and then strips '=' and swaps '+'/'-' and '/'/'_'; composed, that is this
function. -/
def base64UrlEncode : List Nat → List Nat
  | a :: b :: c :: rest =>
    b64Char (a / 4) :: b64Char (a % 4 * 16 + b / 16) ::
      b64Char (b % 16 * 4 + c / 64) :: b64Char (c % 64) :: base64UrlEncode rest
  | [a, b] => [b64Char (a / 4), b64Char (a % 4 * 16 + b / 16), b64Char (b % 16 * 4)]
  | [a] => [b64Char (a / 4), b64Char (a % 4 * 16)]
  | [] => []

/-- Byte reassembly from a sextet sequence (remainders of 2 and 3 sextets
carry 1 and 2 bytes; a trailing single sextet is dropped, as Buffer does). -/
def sextetsToBytes : List Nat → List Nat
  | x1 :: x2 :: x3 :: x4 :: rest =>
    (x1 * 4 + x2 / 16) :: (x2 % 16 * 16 + x3 / 4) :: (x3 % 4 * 64 + x4) :: sextetsToBytes rest
  | [x1, x2, x3] => [x1 * 4 + x2 / 16, x2 % 16 * 16 + x3 / 4]
  | [x1, x2] => [x1 * 4 + x2 / 16]
  | _ => []

/-- base64UrlDecode: swap back to the standard alphabet, re-pad and decode;
in byte terms, collect sextets and reassemble. -/
def base64UrlDecode (s : List Nat) : List Nat := sextetsToBytes (s.filterMap b64Sext)

/-! ## HMAC-SHA256 (crypto.createHmac("sha256", secret)) -/

/-- HMAC-SHA256 digest bytes. -/
def hmacSha256 (key msg : List Nat) : List Nat :=
  let k0 := if 64 < key.length then sha256 key else key
  let kp := k0 ++ List.replicate (64 - k0.length) 0
  sha256 ((kp.map (fun b => b ^^^ 92)) ++ sha256 ((kp.map (fun b => b ^^^ 54)) ++ msg))

/-- createHmacSignature(data, secret): HMAC-SHA256 in base64url. -/
def createHmacSignature (data secret : List Nat) : JStr :=
  base64UrlEncode (hmacSha256 secret data)

/-! ## String splitting on "." (token.split(".")) -/

/-- token.split("."), with empty segments preserved, on byte 46. -/
def splitOnDot : List Nat → List JStr
  | [] => [[]]
  | b :: rest =>
    if b = 46 then [] :: splitOnDot rest
    else
      match splitOnDot rest with
      | [] => [[b]]
      | h :: t => (b :: h) :: t

/-! ## Association lists (JS plain objects used as maps) -/

/-- Lookup (obj[k]). -/
def alGet {α : Type} : List (JStr × α) → JStr → Option α
  | [], _ => none
  | (k, v) :: t, q => if k = q then some v else alGet t q

/-- Update (obj[k] = v): replaces in place, appends if absent. -/
def alSet {α : Type} : List (JStr × α) → JStr → α → List (JStr × α)
  | [], q, v => [(q, v)]
  | (k, w) :: t, q, v => if k = q then (q, v) :: t else (k, w) :: alSet t q v

/-- Deletion (delete obj[k]), preserving the order of the rest. -/
def alErase {α : Type} : List (JStr × α) → JStr → List (JStr × α)
  | [], _ => []
  | (k, v) :: t, q => if k = q then alErase t q else (k, v) :: alErase t q

/-- Keys are pairwise distinct, as in a JS object. -/
def NodupKeys {α : Type} (m : List (JStr × α)) : Prop := (m.map Prod.fst).Nodup

/-! ## Decimal rendering (Number.prototype.toString for naturals) -/

/-- Decimal digit bytes of a natural number, most significant first. -/
def natDec (n : Nat) : JStr :=
  if n = 0 then [48] else (Nat.digits 10 n).reverse.map (fun d => d + 48)

/-- Test for a decimal digit byte. -/
def isDigitB (c : Nat) : Bool := decide (48 ≤ c) && decide (c ≤ 57)

/-! ## JSON fragment (JSON.stringify / JSON.parse as used by the token code) -/

/-- JSON.stringify escaping of one byte of a string. -/
def escByte (b : Nat) : List Nat :=
  if b = 34 then [92, 34]
  else if b = 92 then [92, 92]
  else if b = 8 then [92, 98]
  else if b = 9 then [92, 116]
  else if b = 10 then [92, 110]
  else if b = 12 then [92, 102]
  else if b = 13 then [92, 114]
  else if b < 32 then [92, 117, 48, 48, hexLower (b / 16), hexLower (b % 16)]
  else [b]

/-- JSON.stringify escaping of a whole string body. -/
def escapeStr : List Nat → List Nat
  | [] => []
  | b :: rest => escByte b ++ escapeStr rest

/-- A JSON string literal: quote, escaped body, quote. -/
def renderStr (s : JStr) : JStr := 34 :: (escapeStr s ++ [34])

/-- Single-character JSON escapes accepted by JSON.parse. -/
def unescMap (e : Nat) : Option Nat :=
  if e = 34 then some 34
  else if e = 92 then some 92
  else if e = 47 then some 47
  else if e = 98 then some 8
  else if e = 102 then some 12
  else if e = 110 then some 10
  else if e = 114 then some 13
  else if e = 116 then some 9
  else none

/-- Hex digit value for \u escapes. -/
def hexDigitVal (c : Nat) : Option Nat :=
  if 48 ≤ c ∧ c ≤ 57 then some (c - 48)
  else if 97 ≤ c ∧ c ≤ 102 then some (c - 87)
  else if 65 ≤ c ∧ c ≤ 70 then some (c - 55)
  else none

/-- JSON string-body parser (called after the opening quote); returns the
decoded body and the input remaining after the closing quote.  \u escapes
above 255 are outside the byte-string fragment and rejected. -/
def parseJStr : List Nat → Option (JStr × List Nat)
  | [] => none
  | 92 :: 117 :: h1 :: h2 :: h3 :: h4 :: rest3 =>
    match hexDigitVal h1, hexDigitVal h2, hexDigitVal h3, hexDigitVal h4 with
    | some v1, some v2, some v3, some v4 =>
      if ((v1 * 16 + v2) * 16 + v3) * 16 + v4 < 256 then
        (parseJStr rest3).map (fun p => ((((v1 * 16 + v2) * 16 + v3) * 16 + v4) :: p.1, p.2))
      else none
    | _, _, _, _ => none
  | 92 :: e :: rest2 =>
    (unescMap e).bind (fun ch => (parseJStr rest2).map (fun p => (ch :: p.1, p.2)))
  | [92] => none
  | c :: rest =>
    if c = 34 then some ([], rest) else (parseJStr rest).map (fun p => (c :: p.1, p.2))

/-- Maximal run of decimal digits as a number (integer literals). -/
def parseNatTok (s : List Nat) : Option (Nat × List Nat) :=
  if s.takeWhile isDigitB = [] then none
  else some ((s.takeWhile isDigitB).foldl (fun a c => 10 * a + (c - 48)) 0, s.dropWhile isDigitB)

/-- JSON values of the fragment: strings and integers. -/
inductive JVal where
  | jstr : JStr → JVal
  | jnum : Int → JVal
deriving DecidableEq

/-- JSON value parser of the fragment. -/
def parseVal (s : List Nat) : Option (JVal × List Nat) :=
  match s with
  | [] => none
  | c :: rest =>
    if c = 34 then (parseJStr rest).map (fun p => (JVal.jstr p.1, p.2))
    else if c = 45 then (parseNatTok rest).map (fun p => (JVal.jnum (-(p.1 : Int)), p.2))
    else (parseNatTok s).map (fun p => (JVal.jnum (p.1 : Int), p.2))

/-- One object member: "key":value. -/
def parseField (s : List Nat) : Option ((JStr × JVal) × List Nat) :=
  match s with
  | [] => none
  | c :: rest =>
    if c = 34 then
      (parseJStr rest).bind (fun kp =>
        match kp.2 with
        | [] => none
        | c2 :: r2 => if c2 = 58 then (parseVal r2).map (fun vp => ((kp.1, vp.1), vp.2)) else none)
    else none

/-- Comma-separated members up to the closing brace, fuelled so that the
definition is structural (the fuel is at least the input length, which
bounds the number of members). -/
def parseMembersF : Nat → List Nat → Option (List (JStr × JVal) × List Nat)
  | 0, _ => none
  | fuel + 1, s =>
    (parseField s).bind (fun fp =>
      match fp.2 with
      | [] => none
      | c :: r2 =>
        if c = 44 then (parseMembersF fuel r2).map (fun p => (fp.1 :: p.1, p.2))
        else if c = 125 then some ([fp.1], r2)
        else none)

/-- Flat-object parser: JSON.parse restricted to the fragment exchanged by
the token code. -/
def parseObj (s : List Nat) : Option (List (JStr × JVal) × List Nat) :=
  match s with
  | [] => none
  | c :: rest =>
    if c = 123 then
      match rest with
      | [] => none
      | c2 :: r2 => if c2 = 125 then some ([], r2) else parseMembersF s.length rest
    else none

/-- The shape the source reads off the parsed payload
("JSON.parse(...) as TokenPayload"); absent or differently-typed members
are undefined, i.e. none. -/
structure TokenPayload where
  deviceId : Option JStr
  iat : Option Int
  exp : Option Int
deriving DecidableEq

/-- Member access payload.key as a string. -/
def fieldStr (fs : List (JStr × JVal)) (k : JStr) : Option JStr :=
  match alGet fs k with
  | some (JVal.jstr s) => some s
  | _ => none

/-- Member access payload.key as a number. -/
def fieldNum (fs : List (JStr × JVal)) (k : JStr) : Option Int :=
  match alGet fs k with
  | some (JVal.jnum n) => some n
  | _ => none

/-- JSON.parse of a payload string followed by the TokenPayload reads. -/
def parsePayload (s : List Nat) : Option TokenPayload :=
  match parseObj s with
  | some (fs, []) =>
    some ⟨fieldStr fs (ascii ("deviceId")), fieldNum fs (ascii ("iat")), fieldNum fs (ascii ("exp"))⟩
  | _ => none

/-- JSON.stringify({deviceId, iat, exp}) with natural-number timestamps. -/
def renderPayload (deviceId : JStr) (iat xp : Nat) : JStr :=
  [123] ++ renderStr (ascii ("deviceId")) ++ [58] ++ renderStr deviceId ++ [44]
    ++ renderStr (ascii ("iat")) ++ [58] ++ natDec iat ++ [44]
    ++ renderStr (ascii ("exp")) ++ [58] ++ natDec xp ++ [125]

/-! ## The JWT codec (generateJWT / verifyJWT) -/

/-- base64UrlEncode(JSON.stringify({alg:"HS256",typ:"JWT"})). -/
def headerB64 : JStr := base64UrlEncode (ascii ("\x7b\"alg\":\"HS256\",\"typ\":\"JWT\"\x7d"))

/-- generateJWT(payload, secret, expiresInDays) for payload {deviceId};
Date.now() is the explicit nowMs. -/
def generateJWT (deviceId : JStr) (secret : JStr) (nowMs : Nat) (expiresInDays : Nat) : JStr :=
  let now := nowMs / 1000
  let payloadB64 := base64UrlEncode (renderPayload deviceId now (now + expiresInDays * 24 * 60 * 60))
  let signature := createHmacSignature (headerB64 ++ [46] ++ payloadB64) secret
  headerB64 ++ [46] ++ payloadB64 ++ [46] ++ signature

/-- Result shape of verifyJWT. -/
structure JwtResult where
  valid : Bool
  payload : Option TokenPayload
deriving DecidableEq

/-- The JS truthiness guard "payload.exp && payload.exp < now": an absent or
zero exp skips the expiry check. -/
def expTruthyLt (e : Option Int) (nowS : Nat) : Bool :=
  match e with
  | some v => decide (v ≠ 0) && decide (v < (nowS : Int))
  | none => false

/-- verifyJWT(token, secret); fails closed on a wrong part count, a signature
mismatch, an unparseable payload (the catch), or an elapsed (truthy) expiry. -/
def verifyJWT (token secret : JStr) (nowMs : Nat) : JwtResult :=
  match splitOnDot token with
  | [headerB, payloadB, signature] =>
    if signature ≠ createHmacSignature (headerB ++ [46] ++ payloadB) secret then ⟨false, none⟩
    else
      match parsePayload (base64UrlDecode payloadB) with
      | none => ⟨false, none⟩
      | some payload =>
        if expTruthyLt payload.exp (nowMs / 1000) then ⟨false, none⟩ else ⟨true, some payload⟩
  | _ => ⟨false, none⟩

/-! ## Device store state (scripts/device-store.ts) -/

/-- DeviceInfo; isHost is an optional field. -/
structure DeviceInfo where
  id : JStr
  name : JStr
  platform : JStr
  browser : JStr
  createdAt : Nat
  lastSeenAt : Nat
  ip : JStr
  isHost : Option Bool
deriving DecidableEq

/-- The client-declared {name, platform, browser} snapshot of a request. -/
structure DeviceSnapshot where
  name : JStr
  platform : JStr
  browser : JStr
deriving DecidableEq

/-- PendingRequest.status. -/
inductive ReqStatus where
  | pending
  | approved
  | denied
  | expired
deriving DecidableEq

/-- PendingRequest. -/
structure PendingRequest where
  id : JStr
  device : DeviceSnapshot
  ip : JStr
  status : ReqStatus
  createdAt : Nat
  resolvedAt : Option Nat
  deviceId : Option JStr
  token : Option JStr
deriving DecidableEq

/-- DeviceStoreData: the persisted snapshot {devices, pendingRequests,
revokedTokens, jwtSecret}.  The in-memory revokedSet always mirrors the
revokedTokens list, so only the list is modelled. -/
structure Store where
  devices : List (JStr × DeviceInfo)
  pendingRequests : List (JStr × PendingRequest)
  revokedTokens : List JStr
  jwtSecret : JStr
deriving DecidableEq

/-- addDevice. -/
def addDevice (st : Store) (d : DeviceInfo) : Store :=
  { st with devices := alSet st.devices d.id d }

/-- getDevice. -/
def getDevice (st : Store) (deviceId : JStr) : Option DeviceInfo := alGet st.devices deviceId

/-- Partial<DeviceInfo>: the updates argument of updateDevice. -/
structure DevicePatch where
  id : Option JStr
  name : Option JStr
  platform : Option JStr
  browser : Option JStr
  createdAt : Option Nat
  lastSeenAt : Option Nat
  ip : Option JStr
  isHost : Option (Option Bool)
deriving DecidableEq

/-- The {name} patch the rename endpoint passes. -/
def namePatch (n : JStr) : DevicePatch := ⟨none, some n, none, none, none, none, none, none⟩

/-- Object spread {...device, ...updates}. -/
def mergeDevice (d : DeviceInfo) (p : DevicePatch) : DeviceInfo :=
  { id := p.id.getD d.id, name := p.name.getD d.name, platform := p.platform.getD d.platform,
    browser := p.browser.getD d.browser, createdAt := p.createdAt.getD d.createdAt,
    lastSeenAt := p.lastSeenAt.getD d.lastSeenAt, ip := p.ip.getD d.ip,
    isHost := p.isHost.getD d.isHost }

/-- updateDevice: merge the patch if the device exists. -/
def updateDevice (st : Store) (deviceId : JStr) (updates : DevicePatch) : Store :=
  match alGet st.devices deviceId with
  | some d => { st with devices := alSet st.devices deviceId (mergeDevice d updates) }
  | none => st

/-- updateLastSeen. -/
def updateLastSeen (st : Store) (deviceId : JStr) (ip : JStr) (nowMs : Nat) : Store :=
  match alGet st.devices deviceId with
  | some d =>
    { st with devices := alSet st.devices deviceId { d with lastSeenAt := nowMs, ip := ip } }
  | none => st

/-- Insertion into a list sorted by descending lastSeenAt. -/
def insertByLastSeen (d : DeviceInfo) : List DeviceInfo → List DeviceInfo
  | [] => [d]
  | x :: xs => if x.lastSeenAt ≤ d.lastSeenAt then d :: x :: xs else x :: insertByLastSeen d xs

/-- listDevices: Object.values sorted by lastSeenAt descending. -/
def listDevices (st : Store) : List DeviceInfo :=
  (st.devices.map Prod.snd).foldr insertByLastSeen []

/-- removeDevice: true when something was deleted. -/
def removeDevice (st : Store) (deviceId : JStr) : Bool × Store :=
  match alGet st.devices deviceId with
  | some _ => (true, { st with devices := alErase st.devices deviceId })
  | none => (false, st)

/-- generateToken: a 365-day JWT over {deviceId} with the store secret. -/
def generateToken (st : Store) (deviceId : JStr) (nowMs : Nat) : JStr :=
  generateJWT deviceId st.jwtSecret nowMs 365

/-- Result shape of DeviceStore.verifyToken. -/
structure VerifyTokenResult where
  valid : Bool
  deviceId : Option JStr
deriving DecidableEq

/-- verifyToken: revocation check, then signature/expiry via verifyJWT, then
existence of the device named in the payload. -/
def verifyToken (st : Store) (token : JStr) (nowMs : Nat) : VerifyTokenResult :=
  if token ∈ st.revokedTokens then ⟨false, none⟩
  else
    match verifyJWT token st.jwtSecret nowMs with
    | ⟨true, some payload⟩ =>
      match payload.deviceId with
      | some did =>
        match alGet st.devices did with
        | some _ => ⟨true, some did⟩
        | none => ⟨false, none⟩
      | none => ⟨false, none⟩
    | _ => ⟨false, none⟩

/-- revokeToken: push onto the persisted revokedTokens list, once. -/
def revokeToken (st : Store) (token : JStr) : Store :=
  if token ∈ st.revokedTokens then st
  else { st with revokedTokens := st.revokedTokens ++ [token] }

/-- revokeDevice delegates to removeDevice. -/
def revokeDevice (st : Store) (deviceId : JStr) : Bool × Store := removeDevice st deviceId

/-- revokeAllExcept: delete every device whose id differs from keepDeviceId,
returning the number deleted. -/
def revokeAllExcept (st : Store) (keepDeviceId : JStr) : Nat × Store :=
  ((st.devices.filter (fun p => decide (p.1 ≠ keepDeviceId))).length,
   { st with devices := st.devices.filter (fun p => decide (p.1 = keepDeviceId)) })

/-- REQUEST_EXPIRY_MS = 2 minutes. -/
def REQUEST_EXPIRY_MS : Nat := 2 * 60 * 1000

/-- isRequestExpired: pending and older than the window. -/
def isRequestExpired (r : PendingRequest) (nowMs : Nat) : Bool :=
  decide (r.status = ReqStatus.pending) && decide (REQUEST_EXPIRY_MS < nowMs - r.createdAt)

/-- expireRequest: lazily flip a stale pending request to expired. -/
def expireRequest (st : Store) (requestId : JStr) (nowMs : Nat) : Store :=
  match alGet st.pendingRequests requestId with
  | some r =>
    if r.status = ReqStatus.pending then
      let r2 := { r with status := ReqStatus.expired, resolvedAt := some nowMs }
      { st with pendingRequests := alSet st.pendingRequests requestId r2 }
    else st
  | none => st

/-- The JS truthiness guard "request.resolvedAt && request.resolvedAt < cutoff". -/
def rNzLt (ra : Option Nat) (cutoff : Nat) : Bool :=
  match ra with
  | some v => decide (v ≠ 0) && decide (v < cutoff)
  | none => false

/-- cleanupExpiredRequests: expire stale pending requests, then purge
resolved requests older than 24 hours. -/
def cleanupExpiredRequests (st : Store) (nowMs : Nat) : Store :=
  let phase1 := st.pendingRequests.map (fun p =>
    if isRequestExpired p.2 nowMs then
      (p.1, { p.2 with status := ReqStatus.expired, resolvedAt := some nowMs })
    else p)
  { st with pendingRequests := phase1.filter (fun p =>
      !(decide (p.2.status ≠ ReqStatus.pending) && rNzLt p.2.resolvedAt (nowMs - 86400000))) }

/-- createPendingRequest (the fresh random id is the explicit newId). -/
def createPendingRequest (st : Store) (device : DeviceSnapshot) (ip : JStr) (newId : JStr)
    (nowMs : Nat) : PendingRequest × Store :=
  let st1 := cleanupExpiredRequests st nowMs
  let request : PendingRequest := ⟨newId, device, ip, ReqStatus.pending, nowMs, none, none, none⟩
  (request, { st1 with pendingRequests := alSet st1.pendingRequests newId request })

/-- getPendingRequest of the scripts store: applies the lazy expiry check
and returns the (possibly just-expired) stored record. -/
def getPendingRequest (st : Store) (requestId : JStr) (nowMs : Nat) :
    Option PendingRequest × Store :=
  match alGet st.pendingRequests requestId with
  | none => (none, st)
  | some r =>
    if isRequestExpired r nowMs then
      let st2 := expireRequest st requestId nowMs
      (alGet st2.pendingRequests requestId, st2)
    else (some r, st)

/-- getPendingRequest of the Electron store
(electron/main/services/device-store.ts): a plain lookup with no expiry
check. -/
def electronGetPendingRequest (st : Store) (requestId : JStr) : Option PendingRequest :=
  alGet st.pendingRequests requestId

/-- Insertion into a list sorted by descending createdAt. -/
def insertByCreatedAt (r : PendingRequest) : List PendingRequest → List PendingRequest
  | [] => [r]
  | x :: xs => if x.createdAt ≤ r.createdAt then r :: x :: xs else x :: insertByCreatedAt r xs

/-- listPendingRequests: housekeeping, then the still-pending requests
newest first. -/
def listPendingRequests (st : Store) (nowMs : Nat) : List PendingRequest × Store :=
  let st1 := cleanupExpiredRequests st nowMs
  (((st1.pendingRequests.map Prod.snd).filter
      (fun r => decide (r.status = ReqStatus.pending))).foldr insertByCreatedAt [], st1)

/-- approveRequest (the fresh device id is the explicit newDeviceId). -/
def approveRequest (st : Store) (requestId : JStr) (newDeviceId : JStr) (nowMs : Nat) :
    Option PendingRequest × Store :=
  match alGet st.pendingRequests requestId with
  | none => (none, st)
  | some r =>
    if r.status ≠ ReqStatus.pending then (none, st)
    else if isRequestExpired r nowMs then (none, expireRequest st requestId nowMs)
    else
      let token := generateJWT newDeviceId st.jwtSecret nowMs 365
      let deviceInfo : DeviceInfo :=
        ⟨newDeviceId, r.device.name, r.device.platform, r.device.browser, nowMs, nowMs, r.ip,
          some false⟩
      let r2 :=
        { r with
          status := ReqStatus.approved
          resolvedAt := some nowMs
          deviceId := some newDeviceId
          token := some token }
      let st2 :=
        { st with
          devices := alSet st.devices newDeviceId deviceInfo
          pendingRequests := alSet st.pendingRequests requestId r2 }
      (some r2, st2)

/-- denyRequest. -/
def denyRequest (st : Store) (requestId : JStr) (nowMs : Nat) :
    Option PendingRequest × Store :=
  match alGet st.pendingRequests requestId with
  | none => (none, st)
  | some r =>
    if r.status ≠ ReqStatus.pending then (none, st)
    else
      let r2 := { r with status := ReqStatus.denied, resolvedAt := some nowMs }
      (some r2, { st with pendingRequests := alSet st.pendingRequests requestId r2 })

/-- String.prototype.padStart(6, "0"). -/
def padStart6 (s : JStr) : JStr := List.replicate (6 - s.length) 48 ++ s

/-- getAccessCode: SHA-256 of the secret, first 12 hex digits as a number,
mod 1e6, zero-padded to 6 characters. -/
def getAccessCode (st : Store) : JStr :=
  padStart6 (natDec (parseHexNat ((hexDigest (sha256 st.jwtSecret)).take 12) % 1000000))

/-! ## The localhost test and the HTTP handlers (vite.config.ts middleware) -/

/-- ip.replace(/^::ffff:/, ""). -/
def stripV4Mapped (ip : JStr) : JStr :=
  if (ascii ("::ffff:")).isPrefixOf ip then ip.drop 7 else ip

/-- isLocalhost from the middleware: normalize the IPv4-mapped form, then
compare against the three local notations. -/
def isLocalhost (ip : JStr) : Bool :=
  decide (stripV4Mapped ip = ascii ("127.0.0.1")) ||
    decide (stripV4Mapped ip = ascii ("::1")) ||
    decide (stripV4Mapped ip = ascii ("localhost"))

/-- JSON responses the middleware sends (sendJson payloads; error responses
carry their HTTP status). -/
inductive ApiResp where
  | err (status : Nat)
  | authOk (token : JStr) (deviceId : JStr) (device : DeviceInfo)
  | ok
  | okCount (revokedCount : Nat)
  | okDevice (device : Option DeviceInfo)
  | validOk (deviceId : JStr) (device : Option DeviceInfo)
  | notFoundStatus
  | statusOf (s : ReqStatus)
  | approvedStatus (token : Option JStr) (deviceId : Option JStr)
deriving DecidableEq

/-- Parsed body of POST /api/auth/verify: {code, device}; absent members are
none; none at the top models a JSON parse failure (caught as 400). -/
structure VerifyBody where
  code : Option JStr
  devName : Option JStr
  devPlatform : Option JStr
  devBrowser : Option JStr
deriving DecidableEq

/-- The "x || dflt" defaulting for possibly-absent, possibly-empty strings. -/
def orDefault (v : Option JStr) (dflt : JStr) : JStr :=
  match v with
  | some s => if s = [] then dflt else s
  | none => dflt

/-- POST /api/auth/verify: localhost gate, then body parse, then the stored
access code (.auth-code file content, none when missing), then device
creation.  The fresh random device id is the explicit newDeviceId. -/
def verifyCodeHandler (clientIp : JStr) (body : Option VerifyBody) (authCode : Option JStr)
    (newDeviceId : JStr) (nowMs : Nat) (st : Store) : ApiResp × Store :=
  if ¬ isLocalhost clientIp then (.err 403, st)
  else
    match body with
    | none => (.err 400, st)
    | some b =>
      match authCode with
      | none => (.err 500, st)
      | some validCode =>
        if b.code = some validCode then
          let token := generateToken st newDeviceId nowMs
          let deviceInfo : DeviceInfo :=
            ⟨newDeviceId, orDefault b.devName (ascii ("Unknown Device")),
              orDefault b.devPlatform (ascii ("Unknown")),
              orDefault b.devBrowser (ascii ("Unknown")), nowMs, nowMs, clientIp, some true⟩
          (.authOk token newDeviceId deviceInfo, addDevice st deviceInfo)
        else (.err 401, st)

/-- GET /api/auth/validate. -/
def validateHandler (token : Option JStr) (clientIp : JStr) (nowMs : Nat) (st : Store) :
    ApiResp × Store :=
  match token with
  | none => (.err 401, st)
  | some tok =>
    match verifyToken st tok nowMs with
    | ⟨true, some did⟩ =>
      let st1 := updateLastSeen st did clientIp nowMs
      (.validOk did (getDevice st1 did), st1)
    | _ => (.err 401, st)

/-- POST /api/auth/logout: verify, revoke the presented token, delete the
device. -/
def logoutHandler (token : Option JStr) (nowMs : Nat) (st : Store) : ApiResp × Store :=
  match token with
  | none => (.err 401, st)
  | some tok =>
    match verifyToken st tok nowMs with
    | ⟨true, some did⟩ =>
      let st1 := revokeToken st tok
      let st2 := (removeDevice st1 did).2
      (.ok, st2)
    | _ => (.err 401, st)

/-- GET /api/auth/check-status?requestId=... -/
def checkStatusHandler (requestId : Option JStr) (nowMs : Nat) (st : Store) : ApiResp × Store :=
  match requestId with
  | none => (.notFoundStatus, st)
  | some rid =>
    let res := getPendingRequest st rid nowMs
    match res.1 with
    | none => (.notFoundStatus, res.2)
    | some r =>
      if r.status = ReqStatus.approved then (.approvedStatus r.token r.deviceId, res.2)
      else (.statusOf r.status, res.2)

/-- JS String.prototype.trim on the ASCII whitespace bytes. -/
def isWsB (c : Nat) : Bool := decide (c = 32) || (decide (9 ≤ c) && decide (c ≤ 13))

/-- name.trim(). -/
def trimBytes (s : JStr) : JStr := ((s.dropWhile isWsB).reverse.dropWhile isWsB).reverse

/-- PUT /api/devices/:id/rename: any valid token suffices; the body must
hold a nonempty, non-whitespace name; the target must exist.  body = none is
a parse failure; body = some none is a missing or non-string name. -/
def renameHandler (targetDeviceId : JStr) (token : Option JStr) (body : Option (Option JStr))
    (nowMs : Nat) (st : Store) : ApiResp × Store :=
  match token with
  | none => (.err 401, st)
  | some tok =>
    if (verifyToken st tok nowMs).valid = false then (.err 401, st)
    else
      match body with
      | none => (.err 400, st)
      | some nameField =>
        match nameField with
        | none => (.err 400, st)
        | some n =>
          if n = [] ∨ (trimBytes n).length = 0 then (.err 400, st)
          else
            match getDevice st targetDeviceId with
            | none => (.err 404, st)
            | some _ =>
              let st1 := updateDevice st targetDeviceId (namePatch (trimBytes n))
              (.okDevice (getDevice st1 targetDeviceId), st1)

/-- POST /api/devices/revoke-others. -/
def revokeOthersHandler (token : Option JStr) (nowMs : Nat) (st : Store) : ApiResp × Store :=
  match token with
  | none => (.err 401, st)
  | some tok =>
    match verifyToken st tok nowMs with
    | ⟨true, some did⟩ =>
      let res := revokeAllExcept st did
      (.okCount res.1, res.2)
    | _ => (.err 401, st)

/-! ## Sequences of store operations -/

/-- The store-mutating operations of the claims (create, get, list, approve,
deny, and the device/token operations); fresh random ids are explicit. -/
inductive StoreOp where
  | opAddDevice (d : DeviceInfo)
  | opUpdateDevice (deviceId : JStr) (updates : DevicePatch)
  | opUpdateLastSeen (deviceId : JStr) (ip : JStr) (nowMs : Nat)
  | opRemoveDevice (deviceId : JStr)
  | opRevokeToken (token : JStr)
  | opRevokeAllExcept (keepDeviceId : JStr)
  | opCreate (device : DeviceSnapshot) (ip : JStr) (newId : JStr) (nowMs : Nat)
  | opGet (requestId : JStr) (nowMs : Nat)
  | opList (nowMs : Nat)
  | opApprove (requestId : JStr) (newDeviceId : JStr) (nowMs : Nat)
  | opDeny (requestId : JStr) (nowMs : Nat)
deriving DecidableEq

/-- The store after one operation. -/
def applyOp (st : Store) : StoreOp → Store
  | .opAddDevice d => addDevice st d
  | .opUpdateDevice i u => updateDevice st i u
  | .opUpdateLastSeen i ip n => updateLastSeen st i ip n
  | .opRemoveDevice i => (removeDevice st i).2
  | .opRevokeToken t => revokeToken st t
  | .opRevokeAllExcept k => (revokeAllExcept st k).2
  | .opCreate dev ip newId n => (createPendingRequest st dev ip newId n).2
  | .opGet rid n => (getPendingRequest st rid n).2
  | .opList n => (listPendingRequests st n).2
  | .opApprove rid did n => (approveRequest st rid did n).2
  | .opDeny rid n => (denyRequest st rid n).2

/-- The store after a sequence of operations. -/
def runOps (st : Store) : List StoreOp → Store
  | [] => st
  | op :: ops => runOps (applyOp st op) ops

/-- The ids given to createPendingRequest in a sequence. -/
def createIds : List StoreOp → List JStr
  | [] => []
  | .opCreate _ _ newId _ :: ops => newId :: createIds ops
  | _ :: ops => createIds ops

/-- The phase-1 function of cleanupExpiredRequests as a value map. -/
def expireVal (nowMs : Nat) (r : PendingRequest) : PendingRequest :=
  if isRequestExpired r nowMs then { r with status := ReqStatus.expired, resolvedAt := some nowMs }
  else r

/-- The phase-2 retention predicate of cleanupExpiredRequests. -/
def keepPred (nowMs : Nat) (p : JStr × PendingRequest) : Bool :=
  !(decide (p.2.status ≠ ReqStatus.pending) && rNzLt p.2.resolvedAt (nowMs - 86400000))

/-- The invariant carried along an operation sequence: unique keys, and the
record at id is either untouched or deleted. -/
def PendInv (id : JStr) (r : PendingRequest) (st : Store) : Prop :=
  NodupKeys st.pendingRequests ∧
    (alGet st.pendingRequests id = some r ∨ alGet st.pendingRequests id = none)

def devC7a : DeviceInfo :=
  ⟨ascii ("a"), ascii ("Host"), ascii ("mac"), ascii ("chrome"), 0, 0, ascii ("::1"), some true⟩

def devC7b : DeviceInfo :=
  ⟨ascii ("b"), ascii ("Phone"), ascii ("ios"), ascii ("safari"), 1, 1, ascii ("10.0.0.2"),
    some false⟩

def stC7 : Store := ⟨[(ascii ("a"), devC7a), (ascii ("b"), devC7b)], [], [], ascii ("sec")⟩

def devC6 : DeviceInfo :=
  ⟨ascii ("aa"), ascii ("Host"), ascii ("mac"), ascii ("chrome"), 0, 0, ascii ("::1"), some true⟩

def stC6 : Store := ⟨[(ascii ("aa"), devC6)], [], [], ascii ("sec")⟩

/-- The Device the verify-code endpoint creates for a local caller. -/
def verifiedDevice (b : VerifyBody) (clientIp newDeviceId : JStr) (nowMs : Nat) : DeviceInfo :=
  ⟨newDeviceId, orDefault b.devName (ascii ("Unknown Device")),
    orDefault b.devPlatform (ascii ("Unknown")),
    orDefault b.devBrowser (ascii ("Unknown")), nowMs, nowMs, clientIp, some true⟩

def bodyC1 : VerifyBody := ⟨some (ascii ("123456")), some (ascii ("Mac")), none, none⟩

def rC2 : PendingRequest :=
  ⟨ascii ("r1"), ⟨ascii ("Phone"), ascii ("ios"), ascii ("safari")⟩, ascii ("10.0.0.2"),
    ReqStatus.pending, 0, none, none, none⟩

def stC2 : Store := ⟨[], [(ascii ("r1"), rC2)], [], ascii ("sec")⟩

def rC3 : PendingRequest :=
  ⟨ascii ("r1"), ⟨ascii ("Phone"), ascii ("ios"), ascii ("safari")⟩, ascii ("10.0.0.2"),
    ReqStatus.denied, 0, some 10, none, none⟩

def stC3 : Store := ⟨[], [(ascii ("r1"), rC3)], [], ascii ("sec")⟩

def opsC3 : List StoreOp :=
  [StoreOp.opGet (ascii ("r1")) 130000, StoreOp.opDeny (ascii ("r1")) 130001,
    StoreOp.opList 130002]

def devC10 : DeviceInfo :=
  ⟨ascii ("aa"), ascii ("Old"), ascii ("mac"), ascii ("chrome"), 0, 0, ascii ("::1"), some true⟩

def stC10 : Store := ⟨[(ascii ("aa"), devC10)], [], [], ascii ("sec")⟩

/-- Known-answer test: the FIPS 180 digest of "abc" pins the model to real
SHA-256. -/
theorem sha256_kat_abc : sha256 (ascii ("abc")) =
    [186, 120, 22, 191, 143, 1, 207, 234, 65, 65, 64, 222, 93, 174, 34, 35,
     176, 3, 97, 163, 150, 23, 122, 156, 180, 16, 255, 97, 242, 0, 21, 173] := by
  decide

/-- Known-answer test: RFC 4231 test case 2 pins the HMAC model. -/
theorem hmac_kat_rfc4231 :
    hexDigest (hmacSha256 (ascii ("Jefe")) (ascii ("what do ya want for nothing?"))) =
      ascii ("5bdcc146bf60754e6a042426089575c75a003f089d2739839dec58b964ec3843") := by
  decide

/-! ### Lemmas about base64url -/

theorem b64Sext_b64Char {x : Nat} (hx : x < 64) : b64Sext (b64Char x) = some x := by
  have h : ∀ y : Nat, y < 64 → b64Sext (b64Char y) = some y := by decide
  exact h x hx

theorem b64Char_ne46 (x : Nat) : b64Char x ≠ 46 := by
  unfold b64Char; split_ifs <;> omega

theorem notMem46_base64UrlEncode : ∀ (s : List Nat), 46 ∉ base64UrlEncode s
  | [] => by simp [base64UrlEncode]
  | [a] => by
    simp only [base64UrlEncode, List.mem_cons, List.not_mem_nil, or_false]
    push_neg
    exact ⟨fun h => b64Char_ne46 _ h.symm, fun h => b64Char_ne46 _ h.symm⟩
  | [a, b] => by
    simp only [base64UrlEncode, List.mem_cons, List.not_mem_nil, or_false]
    push_neg
    exact ⟨fun h => b64Char_ne46 _ h.symm, fun h => b64Char_ne46 _ h.symm,
      fun h => b64Char_ne46 _ h.symm⟩
  | a :: b :: c :: rest => by
    simp only [base64UrlEncode, List.mem_cons]
    push_neg
    exact ⟨fun h => b64Char_ne46 _ h.symm, fun h => b64Char_ne46 _ h.symm,
      fun h => b64Char_ne46 _ h.symm, fun h => b64Char_ne46 _ h.symm,
      notMem46_base64UrlEncode rest⟩

theorem foldr_wordBytes_lt : ∀ (ws : List Nat),
    ∀ b ∈ ws.foldr (fun w acc => wordBytes w ++ acc) [], b < 256 := by
  intro ws
  induction ws with
  | nil => simp
  | cons w t ih =>
    intro b hb
    simp only [List.foldr_cons] at hb
    rcases List.mem_append.mp hb with h | h
    · simp only [wordBytes, List.mem_cons, List.not_mem_nil, or_false] at h
      rcases h with h | h | h | h <;> subst h <;> omega
    · exact ih b h

theorem sha256_bytes_lt (msg : List Nat) : ByteOk (sha256 msg) := by
  intro b hb
  exact foldr_wordBytes_lt _ b hb

theorem base64_roundtrip : ∀ (s : List Nat), ByteOk s → base64UrlDecode (base64UrlEncode s) = s
  | [] => fun _ => by simp [base64UrlDecode, base64UrlEncode, sextetsToBytes]
  | [a] => fun h => by
    have ha : a < 256 := h a (by simp)
    simp only [base64UrlDecode, base64UrlEncode]
    rw [List.filterMap_cons_some (b64Sext_b64Char (by omega)),
        List.filterMap_cons_some (b64Sext_b64Char (by omega)),
        List.filterMap_nil]
    simp only [sextetsToBytes]
    congr 1
    omega
  | [a, b] => fun h => by
    have ha : a < 256 := h a (by simp)
    have hb : b < 256 := h b (by simp)
    simp only [base64UrlDecode, base64UrlEncode]
    rw [List.filterMap_cons_some (b64Sext_b64Char (by omega)),
        List.filterMap_cons_some (b64Sext_b64Char (by omega)),
        List.filterMap_cons_some (b64Sext_b64Char (by omega)),
        List.filterMap_nil]
    simp only [sextetsToBytes]
    congr 1
    · omega
    · congr 1
      omega
  | a :: b :: c :: rest => fun h => by
    have ha : a < 256 := h a (by simp)
    have hb : b < 256 := h b (by simp)
    have hc : c < 256 := h c (by simp)
    have hrest : ByteOk rest := fun x hx => h x (by simp [hx])
    have ih := base64_roundtrip rest hrest
    simp only [base64UrlDecode, base64UrlEncode] at ih ⊢
    rw [List.filterMap_cons_some (b64Sext_b64Char (by omega)),
        List.filterMap_cons_some (b64Sext_b64Char (by omega)),
        List.filterMap_cons_some (b64Sext_b64Char (by omega)),
        List.filterMap_cons_some (b64Sext_b64Char (by omega))]
    simp only [sextetsToBytes]
    rw [ih]
    congr 1
    · omega
    · congr 1
      · omega
      · congr 1
        omega

theorem splitOnDot_ne_nil : ∀ (s : List Nat), splitOnDot s ≠ []
  | [] => by simp [splitOnDot]
  | b :: rest => by
    simp only [splitOnDot]
    split
    · simp
    · split
      · simp
      · simp

theorem splitOnDot_no46 : ∀ (s : List Nat), 46 ∉ s → splitOnDot s = [s]
  | [] => fun _ => rfl
  | b :: rest => fun h => by
    have hb : b ≠ 46 := fun e => h (by simp [e])
    have hr : 46 ∉ rest := fun e => h (by simp [e])
    simp only [splitOnDot, if_neg hb, splitOnDot_no46 rest hr]

theorem splitOnDot_sep : ∀ (a : List Nat) (r : List Nat), 46 ∉ a →
    splitOnDot (a ++ 46 :: r) = a :: splitOnDot r
  | [], r => fun _ => by simp [splitOnDot]
  | b :: a, r => fun h => by
    have hb : b ≠ 46 := fun e => h (by simp [e])
    have ha : 46 ∉ a := fun e => h (by simp [e])
    have step := splitOnDot_sep a r ha
    simp only [List.cons_append, splitOnDot, if_neg hb]
    rw [show a.append (46 :: r) = a ++ 46 :: r from rfl, step]

theorem splitOnDot_three (h p s : List Nat) (hh : 46 ∉ h) (hp : 46 ∉ p) (hs : 46 ∉ s) :
    splitOnDot (h ++ [46] ++ p ++ [46] ++ s) = [h, p, s] := by
  have e : h ++ [46] ++ p ++ [46] ++ s = h ++ 46 :: (p ++ 46 :: s) := by simp
  rw [e, splitOnDot_sep h _ hh, splitOnDot_sep p _ hp, splitOnDot_no46 s hs]

theorem alGet_alSet_self {α : Type} : ∀ (m : List (JStr × α)) (k : JStr) (v : α),
    alGet (alSet m k v) k = some v
  | [], k, v => by simp [alGet, alSet]
  | (k0, w) :: t, k, v => by
    by_cases h : k0 = k
    · simp [alGet, alSet, h]
    · simp only [alSet, if_neg h, alGet, if_neg h]
      exact alGet_alSet_self t k v

theorem alGet_alSet_ne {α : Type} : ∀ (m : List (JStr × α)) (k q : JStr) (v : α), k ≠ q →
    alGet (alSet m k v) q = alGet m q
  | [], k, q, v => fun h => by simp [alGet, alSet, h]
  | (k0, w) :: t, k, q, v => fun h => by
    by_cases h0 : k0 = k
    · subst h0
      simp [alGet, alSet, h]
    · simp only [alSet, if_neg h0, alGet]
      by_cases hq : k0 = q
      · simp [hq]
      · simp only [if_neg hq]
        exact alGet_alSet_ne t k q v h

theorem alGet_alErase_self {α : Type} : ∀ (m : List (JStr × α)) (k : JStr),
    alGet (alErase m k) k = none
  | [], k => rfl
  | (k0, w) :: t, k => by
    by_cases h : k0 = k
    · simp only [alErase, if_pos h]
      exact alGet_alErase_self t k
    · simp only [alErase, if_neg h, alGet, if_neg h]
      exact alGet_alErase_self t k

theorem alGet_alErase_ne {α : Type} : ∀ (m : List (JStr × α)) (q k : JStr), k ≠ q →
    alGet (alErase m q) k = alGet m k
  | [], q, k => fun _ => rfl
  | (k0, w) :: t, q, k => fun h => by
    by_cases h0 : k0 = q
    · subst h0
      have hk : k0 ≠ k := fun e => h e.symm
      simp only [alErase, if_pos rfl, alGet, if_neg hk]
      exact alGet_alErase_ne t k0 k h
    · simp only [alErase, if_neg h0, alGet]
      by_cases hk : k0 = k
      · simp [hk]
      · simp only [if_neg hk]
        exact alGet_alErase_ne t q k h

theorem natDec_ne_nil (n : Nat) : natDec n ≠ [] := by
  unfold natDec
  split
  · simp
  · intro h
    rcases List.map_eq_nil_iff.mp h with h2
    have hne : Nat.digits 10 n ≠ [] := Nat.digits_ne_nil_iff_ne_zero.mpr (by assumption)
    simp only [List.reverse_eq_nil_iff] at h2
    exact hne h2

theorem natDec_digits (n : Nat) : ∀ x ∈ natDec n, isDigitB x = true := by
  intro x hx
  unfold natDec at hx
  split at hx
  · simp only [List.mem_cons, List.not_mem_nil, or_false] at hx
    subst hx
    decide
  · rcases List.mem_map.mp hx with ⟨d, hd, rfl⟩
    have hlt : d < 10 := Nat.digits_lt_base (by norm_num) (List.mem_reverse.mp hd)
    simp only [isDigitB, Bool.and_eq_true, decide_eq_true_eq]
    omega

theorem natDec_bytes (n : Nat) : ByteOk (natDec n) := by
  intro x hx
  have := natDec_digits n x hx
  simp only [isDigitB, Bool.and_eq_true, decide_eq_true_eq] at this
  omega

theorem foldr_base10 : ∀ (l : List Nat),
    l.foldr (fun d a => 10 * a + d) 0 = Nat.ofDigits 10 l := by
  intro l
  induction l with
  | nil => simp [Nat.ofDigits]
  | cons d t ih =>
    simp only [List.foldr_cons, ih, Nat.ofDigits_cons]
    ring

theorem natDec_foldl (n : Nat) :
    (natDec n).foldl (fun a c => 10 * a + (c - 48)) 0 = n := by
  unfold natDec
  split
  · subst_vars
    decide
  · rw [List.foldl_map, List.foldl_reverse]
    simp only [Nat.add_sub_cancel]
    rw [foldr_base10, Nat.ofDigits_digits]

/-! ### Round-trip lemmas for the JSON fragment -/

theorem hexDigitVal_hexLower {d : Nat} (hd : d < 16) : hexDigitVal (hexLower d) = some d := by
  have h : ∀ y : Nat, y < 16 → hexDigitVal (hexLower y) = some y := by decide
  exact h d hd

theorem byteok_append {a b : JStr} (ha : ByteOk a) (hb : ByteOk b) : ByteOk (a ++ b) := by
  intro x hx
  rcases List.mem_append.mp hx with h | h
  · exact ha x h
  · exact hb x h

theorem escByte_bytes {b : Nat} (hb : b < 256) : ByteOk (escByte b) := by
  intro x hx
  unfold escByte at hx
  split_ifs at hx with h1 h2 h3 h4 h5 h6 h7 h8 <;>
    simp only [List.mem_cons, List.not_mem_nil, or_false] at hx
  · rcases hx with rfl | rfl <;> omega
  · rcases hx with rfl | rfl <;> omega
  · rcases hx with rfl | rfl <;> omega
  · rcases hx with rfl | rfl <;> omega
  · rcases hx with rfl | rfl <;> omega
  · rcases hx with rfl | rfl <;> omega
  · rcases hx with rfl | rfl <;> omega
  · rcases hx with rfl | rfl | rfl | rfl | rfl | rfl
    · omega
    · omega
    · omega
    · omega
    · unfold hexLower; split_ifs <;> omega
    · unfold hexLower; split_ifs <;> omega
  · subst hx; omega

theorem byteok_escapeStr : ∀ {s : JStr}, ByteOk s → ByteOk (escapeStr s)
  | [], _ => by intro x hx; simp [escapeStr] at hx
  | b :: rest, h => by
    have hb : b < 256 := h b (by simp)
    have hrest : ByteOk rest := fun x hx => h x (by simp [hx])
    exact byteok_append (escByte_bytes hb) (byteok_escapeStr hrest)

theorem parseJStr_escape : ∀ (s : JStr), ByteOk s → ∀ (r : List Nat),
    parseJStr (escapeStr s ++ 34 :: r) = some (s, r)
  | [], _, r => by simp [escapeStr, parseJStr]
  | b :: rest, h, r => by
    have hb : b < 256 := h b (by simp)
    have hrest : ByteOk rest := fun x hx => h x (by simp [hx])
    have ih := parseJStr_escape rest hrest r
    show parseJStr ((escByte b ++ escapeStr rest) ++ 34 :: r) = some (b :: rest, r)
    rw [List.append_assoc]
    by_cases h1 : b = 34
    · subst h1
      rw [show escByte 34 = [92, 34] from rfl]
      show ((unescMap 34).bind
        (fun ch => (parseJStr (escapeStr rest ++ 34 :: r)).map (fun p => (ch :: p.1, p.2)))) = _
      rw [ih]
      rfl
    by_cases h2 : b = 92
    · subst h2
      rw [show escByte 92 = [92, 92] from rfl]
      show ((unescMap 92).bind
        (fun ch => (parseJStr (escapeStr rest ++ 34 :: r)).map (fun p => (ch :: p.1, p.2)))) = _
      rw [ih]
      rfl
    by_cases h3 : b = 8
    · subst h3
      rw [show escByte 8 = [92, 98] from rfl]
      show ((unescMap 98).bind
        (fun ch => (parseJStr (escapeStr rest ++ 34 :: r)).map (fun p => (ch :: p.1, p.2)))) = _
      rw [ih]
      rfl
    by_cases h4 : b = 9
    · subst h4
      rw [show escByte 9 = [92, 116] from rfl]
      show ((unescMap 116).bind
        (fun ch => (parseJStr (escapeStr rest ++ 34 :: r)).map (fun p => (ch :: p.1, p.2)))) = _
      rw [ih]
      rfl
    by_cases h5 : b = 10
    · subst h5
      rw [show escByte 10 = [92, 110] from rfl]
      show ((unescMap 110).bind
        (fun ch => (parseJStr (escapeStr rest ++ 34 :: r)).map (fun p => (ch :: p.1, p.2)))) = _
      rw [ih]
      rfl
    by_cases h6 : b = 12
    · subst h6
      rw [show escByte 12 = [92, 102] from rfl]
      show ((unescMap 102).bind
        (fun ch => (parseJStr (escapeStr rest ++ 34 :: r)).map (fun p => (ch :: p.1, p.2)))) = _
      rw [ih]
      rfl
    by_cases h7 : b = 13
    · subst h7
      rw [show escByte 13 = [92, 114] from rfl]
      show ((unescMap 114).bind
        (fun ch => (parseJStr (escapeStr rest ++ 34 :: r)).map (fun p => (ch :: p.1, p.2)))) = _
      rw [ih]
      rfl
    by_cases h8 : b < 32
    · have e : escByte b = [92, 117, 48, 48, hexLower (b / 16), hexLower (b % 16)] := by
        unfold escByte
        rw [if_neg h1, if_neg h2, if_neg h3, if_neg h4, if_neg h5, if_neg h6, if_neg h7, if_pos h8]
      rw [e]
      have e1 : hexDigitVal 48 = some 0 := by decide
      have e2 : hexDigitVal (hexLower (b / 16)) = some (b / 16) := hexDigitVal_hexLower (by omega)
      have e3 : hexDigitVal (hexLower (b % 16)) = some (b % 16) := hexDigitVal_hexLower (by omega)
      simp only [List.cons_append, List.nil_append, parseJStr, e1, e2, e3]
      have hv : b / 16 * 16 + b % 16 = b := by omega
      norm_num [hv]
      exact ⟨hb, ih⟩
    · have e : escByte b = [b] := by
        unfold escByte
        rw [if_neg h1, if_neg h2, if_neg h3, if_neg h4, if_neg h5, if_neg h6, if_neg h7, if_neg h8]
      rw [e]
      show parseJStr (b :: (escapeStr rest ++ 34 :: r)) = some (b :: rest, r)
      simp [parseJStr, h1, h2, ih]

theorem takeWhile_all_append (p : Nat → Bool) : ∀ (l1 : List Nat) (c : Nat) (l2 : List Nat),
    (∀ x ∈ l1, p x = true) → p c = false →
    (l1 ++ c :: l2).takeWhile p = l1 ∧ (l1 ++ c :: l2).dropWhile p = c :: l2
  | [], c, l2 => fun _ hc => by
    simp [List.takeWhile_cons, List.dropWhile_cons, hc]
  | x :: xs, c, l2 => fun h hc => by
    have hx : p x = true := h x (by simp)
    have ih := takeWhile_all_append p xs c l2 (fun y hy => h y (by simp [hy])) hc
    simp [List.takeWhile_cons, List.dropWhile_cons, hx, ih.1, ih.2]

theorem parseNatTok_natDec (n : Nat) (c : Nat) (l2 : List Nat) (hc : isDigitB c = false) :
    parseNatTok (natDec n ++ c :: l2) = some (n, c :: l2) := by
  obtain ⟨ht, hd⟩ := takeWhile_all_append isDigitB (natDec n) c l2 (natDec_digits n) hc
  unfold parseNatTok
  rw [ht, hd, if_neg (natDec_ne_nil n), natDec_foldl]

theorem parseVal_str (sv : JStr) (hsv : ByteOk sv) (r : List Nat) :
    parseVal (renderStr sv ++ r) = some (JVal.jstr sv, r) := by
  show parseVal (34 :: ((escapeStr sv ++ [34]) ++ r)) = some (JVal.jstr sv, r)
  rw [List.append_assoc]
  show (parseJStr (escapeStr sv ++ 34 :: r)).map (fun p => (JVal.jstr p.1, p.2))
    = some (JVal.jstr sv, r)
  rw [parseJStr_escape sv hsv r]
  rfl

theorem parseVal_nat (n : Nat) (c : Nat) (l2 : List Nat) (hc : isDigitB c = false) :
    parseVal (natDec n ++ c :: l2) = some (JVal.jnum (n : Int), c :: l2) := by
  obtain ⟨d, ds, e⟩ := List.exists_cons_of_ne_nil (natDec_ne_nil n)
  have hd : isDigitB d = true := natDec_digits n d (by rw [e]; simp)
  have hd2 : 48 ≤ d ∧ d ≤ 57 := by
    simp only [isDigitB, Bool.and_eq_true, decide_eq_true_eq] at hd
    exact hd
  rw [e, List.cons_append]
  rw [show parseVal (d :: (ds ++ c :: l2)) =
    (if d = 34 then (parseJStr (ds ++ c :: l2)).map (fun p => (JVal.jstr p.1, p.2))
     else if d = 45 then (parseNatTok (ds ++ c :: l2)).map (fun p => (JVal.jnum (-(p.1 : Int)), p.2))
     else (parseNatTok (d :: (ds ++ c :: l2))).map (fun p => (JVal.jnum (p.1 : Int), p.2)))
    from rfl]
  rw [if_neg (by omega), if_neg (by omega)]
  have e2 : d :: (ds ++ c :: l2) = natDec n ++ c :: l2 := by rw [e, List.cons_append]
  rw [e2, parseNatTok_natDec n c l2 hc]
  rfl

theorem parseField_str (k sv : JStr) (hk : ByteOk k) (hsv : ByteOk sv) (r : List Nat) :
    parseField (renderStr k ++ 58 :: (renderStr sv ++ r)) = some ((k, JVal.jstr sv), r) := by
  show parseField (34 :: ((escapeStr k ++ [34]) ++ (58 :: (renderStr sv ++ r))))
    = some ((k, JVal.jstr sv), r)
  rw [List.append_assoc]
  show (parseJStr (escapeStr k ++ 34 :: (58 :: (renderStr sv ++ r)))).bind (fun kp =>
      match kp.2 with
      | [] => none
      | c2 :: r2 =>
        if c2 = 58 then (parseVal r2).map (fun vp => ((kp.1, vp.1), vp.2)) else none)
    = some ((k, JVal.jstr sv), r)
  rw [parseJStr_escape k hk _]
  show (if (58 : Nat) = 58 then
    (parseVal (renderStr sv ++ r)).map (fun vp => ((k, vp.1), vp.2)) else none)
    = some ((k, JVal.jstr sv), r)
  rw [if_pos rfl, parseVal_str sv hsv r]
  rfl

theorem parseField_nat (k : JStr) (hk : ByteOk k) (n : Nat) (c : Nat) (l2 : List Nat)
    (hc : isDigitB c = false) :
    parseField (renderStr k ++ 58 :: (natDec n ++ c :: l2))
      = some ((k, JVal.jnum (n : Int)), c :: l2) := by
  show parseField (34 :: ((escapeStr k ++ [34]) ++ (58 :: (natDec n ++ c :: l2))))
    = some ((k, JVal.jnum (n : Int)), c :: l2)
  rw [List.append_assoc]
  show (parseJStr (escapeStr k ++ 34 :: (58 :: (natDec n ++ c :: l2)))).bind (fun kp =>
      match kp.2 with
      | [] => none
      | c2 :: r2 =>
        if c2 = 58 then (parseVal r2).map (fun vp => ((kp.1, vp.1), vp.2)) else none)
    = some ((k, JVal.jnum (n : Int)), c :: l2)
  rw [parseJStr_escape k hk _]
  show (if (58 : Nat) = 58 then
    (parseVal (natDec n ++ c :: l2)).map (fun vp => ((k, vp.1), vp.2)) else none)
    = some ((k, JVal.jnum (n : Int)), c :: l2)
  rw [if_pos rfl, parseVal_nat n c l2 hc]
  rfl

theorem parseMembersF_succ (fuel : Nat) (s : List Nat) :
    parseMembersF (fuel + 1) s = (parseField s).bind (fun fp =>
      match fp.2 with
      | [] => none
      | c :: r2 =>
        if c = 44 then (parseMembersF fuel r2).map (fun p => (fp.1 :: p.1, p.2))
        else if c = 125 then some ([fp.1], r2)
        else none) := rfl

theorem parseMembersF_step_str (f : Nat) (k sv : JStr) (hk : ByteOk k) (hsv : ByteOk sv)
    (t : List Nat) :
    parseMembersF (f + 1) (renderStr k ++ 58 :: (renderStr sv ++ 44 :: t)) =
      (parseMembersF f t).map (fun p => ((k, JVal.jstr sv) :: p.1, p.2)) := by
  rw [parseMembersF_succ, parseField_str k sv hk hsv (44 :: t)]
  rfl

theorem parseMembersF_step_nat (f : Nat) (k : JStr) (hk : ByteOk k) (n : Nat) (t : List Nat) :
    parseMembersF (f + 1) (renderStr k ++ 58 :: (natDec n ++ 44 :: t)) =
      (parseMembersF f t).map (fun p => ((k, JVal.jnum (n : Int)) :: p.1, p.2)) := by
  rw [parseMembersF_succ, parseField_nat k hk n 44 t (by decide)]
  rfl

theorem parseMembersF_last_nat (f : Nat) (k : JStr) (hk : ByteOk k) (n : Nat) :
    parseMembersF (f + 1) (renderStr k ++ 58 :: (natDec n ++ 125 :: [])) =
      some ([(k, JVal.jnum (n : Int))], []) := by
  rw [parseMembersF_succ, parseField_nat k hk n 125 [] (by decide)]
  rfl

theorem renderPayload_nested (d : JStr) (iat xp : Nat) : renderPayload d iat xp =
    123 :: (renderStr (ascii ("deviceId")) ++ 58 :: (renderStr d ++ 44 ::
      (renderStr (ascii ("iat")) ++ 58 :: (natDec iat ++ 44 ::
      (renderStr (ascii ("exp")) ++ 58 :: (natDec xp ++ 125 :: [])))))) := by
  simp [renderPayload, List.append_assoc]

theorem parseMembersF_render (d : JStr) (hD : ByteOk d) (iat xp : Nat) (f : Nat) :
    parseMembersF (f + 3) (renderStr (ascii ("deviceId")) ++ 58 :: (renderStr d ++ 44 ::
      (renderStr (ascii ("iat")) ++ 58 :: (natDec iat ++ 44 ::
      (renderStr (ascii ("exp")) ++ 58 :: (natDec xp ++ 125 :: [])))))) =
    some ([(ascii ("deviceId"), JVal.jstr d), (ascii ("iat"), JVal.jnum (iat : Int)),
           (ascii ("exp"), JVal.jnum (xp : Int))], []) := by
  rw [parseMembersF_step_str (f + 2) (ascii ("deviceId")) d (by decide) hD]
  rw [parseMembersF_step_nat (f + 1) (ascii ("iat")) (by decide) iat]
  rw [parseMembersF_last_nat f (ascii ("exp")) (by decide) xp]
  rfl

theorem parseObj_via_members (body : List Nat) (x : List (JStr × JVal) × List Nat) (t : List Nat)
    (hhead : body = 34 :: t)
    (h : parseMembersF (body.length + 1) body = some x) :
    parseObj (123 :: body) = some x := by
  subst hhead
  show parseMembersF ((123 :: 34 :: t).length) (34 :: t) = some x
  have e2 : (123 :: 34 :: t).length = (34 :: t).length + 1 := by simp
  rw [e2]
  exact h

theorem parsePayload_render (d : JStr) (hD : ByteOk d) (iat xp : Nat) :
    parsePayload (renderPayload d iat xp)
      = some ⟨some d, some (iat : Int), some (xp : Int)⟩ := by
  rw [renderPayload_nested]
  set T := renderStr d ++ 44 :: (renderStr (ascii ("iat")) ++ 58 :: (natDec iat ++ 44 ::
      (renderStr (ascii ("exp")) ++ 58 :: (natDec xp ++ 125 :: [])))) with hT
  have h10 : (renderStr (ascii ("deviceId"))).length = 10 := by decide
  have hlen : (renderStr (ascii ("deviceId")) ++ 58 :: T).length = T.length + 11 := by
    rw [List.length_append, h10, List.length_cons]
    omega
  have hm := parseMembersF_render d hD iat xp (T.length + 9)
  rw [hT] at hm
  have hfe : T.length + 9 + 3 = (renderStr (ascii ("deviceId")) ++ 58 :: T).length + 1 := by
    rw [hlen]
  rw [hfe] at hm
  have hhead : renderStr (ascii ("deviceId")) ++ 58 :: T
      = 34 :: ((escapeStr (ascii ("deviceId")) ++ [34]) ++ 58 :: T) := by
    simp [renderStr]
  have hobj := parseObj_via_members (renderStr (ascii ("deviceId")) ++ 58 :: T) _ _ hhead hm
  show parsePayload (123 :: (renderStr (ascii ("deviceId")) ++ 58 :: T))
    = some ⟨some d, some (iat : Int), some (xp : Int)⟩
  have hps : parsePayload (123 :: (renderStr (ascii ("deviceId")) ++ 58 :: T))
      = match parseObj (123 :: (renderStr (ascii ("deviceId")) ++ 58 :: T)) with
        | some (fs, []) =>
          some ⟨fieldStr fs (ascii ("deviceId")), fieldNum fs (ascii ("iat")),
                fieldNum fs (ascii ("exp"))⟩
        | _ => none := rfl
  rw [hps, hobj]
  have n12 : ascii ("deviceId") ≠ ascii ("iat") := by decide
  have n13 : ascii ("deviceId") ≠ ascii ("exp") := by decide
  have n23 : ascii ("iat") ≠ ascii ("exp") := by decide
  simp [fieldStr, fieldNum, alGet, n12, n13, n23]

theorem byteok_cons {b : Nat} {t : JStr} (hb : b < 256) (ht : ByteOk t) : ByteOk (b :: t) := by
  intro x hx
  rcases List.mem_cons.mp hx with rfl | h
  · exact hb
  · exact ht x h

theorem byteok_renderStr {s : JStr} (h : ByteOk s) : ByteOk (renderStr s) :=
  byteok_cons (by omega) (byteok_append (byteok_escapeStr h) (by decide))

theorem byteok_renderPayload {d : JStr} (hD : ByteOk d) (i x : Nat) :
    ByteOk (renderPayload d i x) := by
  rw [renderPayload_nested]
  exact byteok_cons (by omega) (byteok_append (byteok_renderStr (by decide))
    (byteok_cons (by omega) (byteok_append (byteok_renderStr hD)
    (byteok_cons (by omega) (byteok_append (byteok_renderStr (by decide))
    (byteok_cons (by omega) (byteok_append (natDec_bytes i)
    (byteok_cons (by omega) (byteok_append (byteok_renderStr (by decide))
    (byteok_cons (by omega) (byteok_append (natDec_bytes x)
    (byteok_cons (by omega) (by intro y hy; simp at hy)))))))))))))

theorem verifyJWT_parts (hB pB sg secret : JStr) (nowMs : Nat)
    (hh : 46 ∉ hB) (hp : 46 ∉ pB) (hs : 46 ∉ sg) :
    verifyJWT (hB ++ [46] ++ pB ++ [46] ++ sg) secret nowMs =
      (if sg ≠ createHmacSignature (hB ++ [46] ++ pB) secret then ⟨false, none⟩
       else
         match parsePayload (base64UrlDecode pB) with
         | none => ⟨false, none⟩
         | some payload =>
           if expTruthyLt payload.exp (nowMs / 1000) then ⟨false, none⟩
           else ⟨true, some payload⟩) := by
  unfold verifyJWT
  rw [splitOnDot_three hB pB sg hh hp hs]

/-- Sign-then-verify round trip: a freshly generated token verifies, with
the signed deviceId, at any time not after the encoded expiry. -/
theorem jwt_roundtrip (deviceId secret : JStr) (hD : ByteOk deviceId) (nowMs now2Ms : Nat)
    (hexp : now2Ms / 1000 ≤ nowMs / 1000 + 31536000) :
    verifyJWT (generateJWT deviceId secret nowMs 365) secret now2Ms =
      ⟨true, some ⟨some deviceId, some ((nowMs / 1000 : Nat) : Int),
        some ((nowMs / 1000 + 31536000 : Nat) : Int)⟩⟩ := by
  have e365 : nowMs / 1000 + (365 : Nat) * 24 * 60 * 60 = nowMs / 1000 + 31536000 := by norm_num
  have etok : generateJWT deviceId secret nowMs 365 =
      headerB64 ++ [46] ++
        base64UrlEncode (renderPayload deviceId (nowMs / 1000) (nowMs / 1000 + 31536000)) ++ [46] ++
        createHmacSignature (headerB64 ++ [46] ++
          base64UrlEncode (renderPayload deviceId (nowMs / 1000) (nowMs / 1000 + 31536000)))
          secret := by
    unfold generateJWT
    rw [e365]
  rw [etok]
  have hh : (46 : Nat) ∉ headerB64 := notMem46_base64UrlEncode _
  have hp : (46 : Nat) ∉
      base64UrlEncode (renderPayload deviceId (nowMs / 1000) (nowMs / 1000 + 31536000)) :=
    notMem46_base64UrlEncode _
  have hs : (46 : Nat) ∉ createHmacSignature (headerB64 ++ [46] ++
      base64UrlEncode (renderPayload deviceId (nowMs / 1000) (nowMs / 1000 + 31536000))) secret :=
    notMem46_base64UrlEncode _
  rw [verifyJWT_parts headerB64
    (base64UrlEncode (renderPayload deviceId (nowMs / 1000) (nowMs / 1000 + 31536000)))
    (createHmacSignature (headerB64 ++ [46] ++
      base64UrlEncode (renderPayload deviceId (nowMs / 1000) (nowMs / 1000 + 31536000))) secret)
    secret now2Ms hh hp hs]
  rw [if_neg (by simp)]
  rw [base64_roundtrip (renderPayload deviceId (nowMs / 1000) (nowMs / 1000 + 31536000))
    (byteok_renderPayload hD _ _)]
  rw [parsePayload_render deviceId hD (nowMs / 1000) (nowMs / 1000 + 31536000)]
  have hfalse : expTruthyLt (some ((nowMs / 1000 + 31536000 : Nat) : Int)) (now2Ms / 1000)
      = false := by
    simp only [expTruthyLt, Bool.and_eq_false_iff, decide_eq_false_iff_not, not_not, not_lt]
    right
    push_cast
    omega
  rw [show (match some (⟨some deviceId, some ((nowMs / 1000 : Nat) : Int),
      some ((nowMs / 1000 + 31536000 : Nat) : Int)⟩ : TokenPayload) with
      | none => (⟨false, none⟩ : JwtResult)
      | some payload =>
        if expTruthyLt payload.exp (now2Ms / 1000) then ⟨false, none⟩
        else ⟨true, some payload⟩)
    = if expTruthyLt (some ((nowMs / 1000 + 31536000 : Nat) : Int)) (now2Ms / 1000)
      then (⟨false, none⟩ : JwtResult)
      else ⟨true, some ⟨some deviceId, some ((nowMs / 1000 : Nat) : Int),
        some ((nowMs / 1000 + 31536000 : Nat) : Int)⟩⟩ from rfl]
  rw [hfalse]
  rfl

/-! ### Association-list support lemmas -/

theorem alGet_some_mem_keys {α : Type} : ∀ (m : List (JStr × α)) (q : JStr) (v : α),
    alGet m q = some v → q ∈ m.map Prod.fst
  | [], q, v => by simp [alGet]
  | (k, w) :: t, q, v => fun h => by
    by_cases hk : k = q
    · simp [hk]
    · simp only [alGet, if_neg hk] at h
      simp [alGet_some_mem_keys t q v h]

theorem alGet_none_of_not_mem {α : Type} : ∀ (m : List (JStr × α)) (q : JStr),
    q ∉ m.map Prod.fst → alGet m q = none
  | [], q => fun _ => rfl
  | (k, w) :: t, q => fun h => by
    have hk : k ≠ q := fun e => h (by simp [e])
    have ht : q ∉ t.map Prod.fst := fun e => h (by simp [e])
    simp only [alGet, if_neg hk]
    exact alGet_none_of_not_mem t q ht

theorem alGet_mapVal {α : Type} (f : α → α) : ∀ (m : List (JStr × α)) (q : JStr),
    alGet (m.map (fun p => (p.1, f p.2))) q = (alGet m q).map f
  | [], q => rfl
  | (k, w) :: t, q => by
    by_cases hk : k = q
    · simp [alGet, hk]
    · simp only [List.map_cons, alGet, if_neg hk]
      exact alGet_mapVal f t q

theorem alGet_filter_none {α : Type} (pr : JStr × α → Bool) :
    ∀ (m : List (JStr × α)) (q : JStr),
    alGet m q = none → alGet (m.filter pr) q = none
  | [], q => fun _ => rfl
  | (k, w) :: t, q => fun h => by
    have hk : k ≠ q := by
      intro e
      simp [alGet, e] at h
    simp only [alGet, if_neg hk] at h
    simp only [List.filter_cons]
    split
    · simp only [alGet, if_neg hk]
      exact alGet_filter_none pr t q h
    · exact alGet_filter_none pr t q h

theorem alGet_filter {α : Type} (pr : JStr × α → Bool) :
    ∀ (m : List (JStr × α)) (q : JStr) (v : α), NodupKeys m →
    alGet m q = some v →
    alGet (m.filter pr) q = if pr (q, v) then some v else none
  | [], q, v => by simp [alGet]
  | (k, w) :: t, q, v => fun hnd h => by
    have hnd2 : NodupKeys t := (List.nodup_cons.mp hnd).2
    have hknotin : k ∉ t.map Prod.fst := (List.nodup_cons.mp hnd).1
    by_cases hk : k = q
    · subst hk
      simp only [alGet, eq_self_iff_true, if_true, Option.some.injEq] at h
      subst h
      simp only [List.filter_cons]
      split
      · next hpr =>
        simp [alGet, hpr]
      · next hpr =>
        have hnone : alGet t k = none := alGet_none_of_not_mem t k hknotin
        rw [alGet_filter_none pr t k hnone]
    · simp only [alGet, if_neg hk] at h
      simp only [List.filter_cons]
      split
      · simp only [alGet, if_neg hk]
        exact alGet_filter pr t q v hnd2 h
      · exact alGet_filter pr t q v hnd2 h

theorem keys_alSet {α : Type} : ∀ (m : List (JStr × α)) (k : JStr) (v : α),
    (alSet m k v).map Prod.fst = m.map Prod.fst ∨
      (alSet m k v).map Prod.fst = m.map Prod.fst ++ [k]
  | [], k, v => by simp [alSet]
  | (k0, w) :: t, k, v => by
    by_cases h : k0 = k
    · subst h
      simp [alSet]
    · simp only [alSet, if_neg h, List.map_cons]
      rcases keys_alSet t k v with h2 | h2
      · left
        rw [h2]
      · right
        rw [h2]
        simp

theorem nodupKeys_alSet {α : Type} (m : List (JStr × α)) (k : JStr) (v : α)
    (h : NodupKeys m) :
    NodupKeys (alSet m k v) := by
  induction m with
  | nil => simp [alSet, NodupKeys]
  | cons p t ih =>
    obtain ⟨k0, w⟩ := p
    have hnd := List.nodup_cons.mp h
    by_cases hk : k0 = k
    · subst hk
      simpa [alSet, NodupKeys] using h
    · simp only [alSet, if_neg hk, List.map_cons, NodupKeys, List.nodup_cons]
      constructor
      · intro hmem
        rcases keys_alSet t k v with h2 | h2
        · rw [h2] at hmem
          exact hnd.1 hmem
        · rw [h2] at hmem
          rcases List.mem_append.mp hmem with h3 | h3
          · exact hnd.1 h3
          · simp at h3
            exact hk h3
      · exact ih hnd.2

theorem mem_keys_filter {α : Type} (pr : JStr × α → Bool) :
    ∀ (m : List (JStr × α)) (q : JStr),
    q ∈ (m.filter pr).map Prod.fst → q ∈ m.map Prod.fst
  | [], q => by simp
  | (k, w) :: t, q => fun h => by
    simp only [List.filter_cons] at h
    split at h
    · simp only [List.map_cons, List.mem_cons] at h ⊢
      rcases h with h | h
      · exact Or.inl h
      · exact Or.inr (mem_keys_filter pr t q h)
    · simp only [List.map_cons, List.mem_cons]
      exact Or.inr (mem_keys_filter pr t q h)

theorem nodupKeys_filter {α : Type} (pr : JStr × α → Bool) :
    ∀ (m : List (JStr × α)), NodupKeys m → NodupKeys (m.filter pr)
  | [], _ => by simp [NodupKeys]
  | (k, w) :: t, h => by
    have hnd := List.nodup_cons.mp h
    simp only [List.filter_cons]
    split
    · simp only [NodupKeys, List.map_cons, List.nodup_cons]
      exact ⟨fun hm => hnd.1 (mem_keys_filter pr t k hm), nodupKeys_filter pr t hnd.2⟩
    · exact nodupKeys_filter pr t hnd.2

theorem nodupKeys_mapVal {α : Type} (f : α → α) (m : List (JStr × α)) (h : NodupKeys m) :
    NodupKeys (m.map (fun p => (p.1, f p.2))) := by
  unfold NodupKeys at *
  rw [List.map_map]
  exact h

theorem cleanup_pend_eq (st : Store) (nowMs : Nat) :
    (cleanupExpiredRequests st nowMs).pendingRequests =
      (st.pendingRequests.map (fun p => (p.1, expireVal nowMs p.2))).filter (keepPred nowMs) := by
  show (st.pendingRequests.map (fun p =>
      if isRequestExpired p.2 nowMs then
        (p.1, { p.2 with status := ReqStatus.expired, resolvedAt := some nowMs })
      else p)).filter (keepPred nowMs)
    = (st.pendingRequests.map (fun p => (p.1, expireVal nowMs p.2))).filter (keepPred nowMs)
  congr 1
  apply List.map_congr_left
  intro p _
  unfold expireVal
  by_cases h : isRequestExpired p.2 nowMs
  · simp [h]
  · simp [h]

theorem expireVal_of_terminal {r : PendingRequest} (h : r.status ≠ ReqStatus.pending)
    (nowMs : Nat) : expireVal nowMs r = r := by
  unfold expireVal isRequestExpired
  simp [h]

theorem pendInv_cleanup {id : JStr} {r : PendingRequest} {st : Store} (nowMs : Nat)
    (hstat : r.status ≠ ReqStatus.pending) (h : PendInv id r st) :
    PendInv id r (cleanupExpiredRequests st nowMs) := by
  obtain ⟨hnd, hget⟩ := h
  have hndm := nodupKeys_mapVal (expireVal nowMs) _ hnd
  constructor
  · rw [cleanup_pend_eq]
    exact nodupKeys_filter _ _ hndm
  · rw [cleanup_pend_eq]
    rcases hget with hget | hget
    · have hm : alGet (st.pendingRequests.map (fun p => (p.1, expireVal nowMs p.2))) id
          = some r := by
        rw [alGet_mapVal, hget]
        simp [expireVal_of_terminal hstat]
      rw [alGet_filter (keepPred nowMs) _ id r hndm hm]
      split
      · exact Or.inl rfl
      · exact Or.inr rfl
    · have hm : alGet (st.pendingRequests.map (fun p => (p.1, expireVal nowMs p.2))) id
          = none := by
        rw [alGet_mapVal, hget]
        rfl
      exact Or.inr (alGet_filter_none _ _ _ hm)

theorem pendInv_expireRequest {id : JStr} {r : PendingRequest} {st : Store}
    (rid : JStr) (nowMs : Nat)
    (hstat : r.status ≠ ReqStatus.pending) (h : PendInv id r st) :
    PendInv id r (expireRequest st rid nowMs) := by
  obtain ⟨hnd, hget⟩ := h
  unfold expireRequest
  cases hrid : alGet st.pendingRequests rid with
  | none => exact ⟨hnd, hget⟩
  | some r0 =>
    by_cases hp : r0.status = ReqStatus.pending
    · have hne : rid ≠ id := by
        intro e
        subst e
        rcases hget with hget | hget
        · rw [hrid] at hget
          injection hget with e2
          subst e2
          exact hstat hp
        · rw [hrid] at hget
          exact Option.noConfusion hget
      simp only [if_pos hp]
      refine ⟨nodupKeys_alSet _ _ _ hnd, ?_⟩
      rw [alGet_alSet_ne _ _ _ _ hne]
      exact hget
    · simp only [if_neg hp]
      exact ⟨hnd, hget⟩

theorem pendInv_applyOp {id : JStr} {r : PendingRequest} {st : Store} (op : StoreOp)
    (hstat : r.status ≠ ReqStatus.pending)
    (hop : ∀ dev ip nid n, op = StoreOp.opCreate dev ip nid n → nid ≠ id)
    (h : PendInv id r st) : PendInv id r (applyOp st op) := by
  obtain ⟨hnd, hget⟩ := h
  cases op with
  | opAddDevice d => exact ⟨hnd, hget⟩
  | opUpdateDevice i u =>
    have e : (updateDevice st i u).pendingRequests = st.pendingRequests := by
      unfold updateDevice
      split <;> rfl
    show PendInv id r (updateDevice st i u)
    unfold PendInv
    rw [e]
    exact ⟨hnd, hget⟩
  | opUpdateLastSeen i ip n =>
    have e : (updateLastSeen st i ip n).pendingRequests = st.pendingRequests := by
      unfold updateLastSeen
      split <;> rfl
    show PendInv id r (updateLastSeen st i ip n)
    unfold PendInv
    rw [e]
    exact ⟨hnd, hget⟩
  | opRemoveDevice i =>
    have e : ((removeDevice st i).2).pendingRequests = st.pendingRequests := by
      unfold removeDevice
      split <;> rfl
    show PendInv id r (removeDevice st i).2
    unfold PendInv
    rw [e]
    exact ⟨hnd, hget⟩
  | opRevokeToken t =>
    have e : (revokeToken st t).pendingRequests = st.pendingRequests := by
      unfold revokeToken
      split <;> rfl
    show PendInv id r (revokeToken st t)
    unfold PendInv
    rw [e]
    exact ⟨hnd, hget⟩
  | opRevokeAllExcept k => exact ⟨hnd, hget⟩
  | opCreate dev ip nid n =>
    have hne : nid ≠ id := hop dev ip nid n rfl
    have hc := pendInv_cleanup n hstat ⟨hnd, hget⟩
    show PendInv id r
      { cleanupExpiredRequests st n with
        pendingRequests := alSet (cleanupExpiredRequests st n).pendingRequests nid
          ⟨nid, dev, ip, ReqStatus.pending, n, none, none, none⟩ }
    refine ⟨nodupKeys_alSet _ _ _ hc.1, ?_⟩
    show alGet (alSet (cleanupExpiredRequests st n).pendingRequests nid
      ⟨nid, dev, ip, ReqStatus.pending, n, none, none, none⟩) id = some r ∨ _ = none
    rw [alGet_alSet_ne _ _ _ _ hne]
    exact hc.2
  | opGet rid n =>
    show PendInv id r (getPendingRequest st rid n).2
    unfold getPendingRequest
    cases hrid : alGet st.pendingRequests rid with
    | none => exact ⟨hnd, hget⟩
    | some r0 =>
      by_cases hexp : isRequestExpired r0 n
      · simp only [if_pos hexp]
        exact pendInv_expireRequest rid n hstat ⟨hnd, hget⟩
      · simp only [if_neg hexp]
        exact ⟨hnd, hget⟩
  | opList n =>
    show PendInv id r (listPendingRequests st n).2
    exact pendInv_cleanup n hstat ⟨hnd, hget⟩
  | opApprove rid did n =>
    show PendInv id r (approveRequest st rid did n).2
    unfold approveRequest
    cases hrid : alGet st.pendingRequests rid with
    | none => exact ⟨hnd, hget⟩
    | some r0 =>
      by_cases hp : r0.status = ReqStatus.pending
      · have hcond : ¬ (r0.status ≠ ReqStatus.pending) := by simp [hp]
        simp only [if_neg hcond]
        by_cases hexp : isRequestExpired r0 n
        · simp only [if_pos hexp]
          exact pendInv_expireRequest rid n hstat ⟨hnd, hget⟩
        · simp only [if_neg hexp]
          have hne : rid ≠ id := by
            intro e
            subst e
            rcases hget with hget | hget
            · rw [hrid] at hget
              injection hget with e2
              subst e2
              exact hstat hp
            · rw [hrid] at hget
              exact Option.noConfusion hget
          refine ⟨nodupKeys_alSet _ _ _ hnd, ?_⟩
          rw [alGet_alSet_ne _ _ _ _ hne]
          exact hget
      · simp only [if_pos hp]
        exact ⟨hnd, hget⟩
  | opDeny rid n =>
    show PendInv id r (denyRequest st rid n).2
    unfold denyRequest
    cases hrid : alGet st.pendingRequests rid with
    | none => exact ⟨hnd, hget⟩
    | some r0 =>
      by_cases hp : r0.status = ReqStatus.pending
      · have hcond : ¬ (r0.status ≠ ReqStatus.pending) := by simp [hp]
        simp only [if_neg hcond]
        have hne : rid ≠ id := by
          intro e
          subst e
          rcases hget with hget | hget
          · rw [hrid] at hget
            injection hget with e2
            subst e2
            exact hstat hp
          · rw [hrid] at hget
            exact Option.noConfusion hget
        refine ⟨nodupKeys_alSet _ _ _ hnd, ?_⟩
        rw [alGet_alSet_ne _ _ _ _ hne]
        exact hget
      · simp only [if_pos hp]
        exact ⟨hnd, hget⟩

theorem runOps_pendInv {id : JStr} {r : PendingRequest} (hstat : r.status ≠ ReqStatus.pending) :
    ∀ (ops : List StoreOp) (st : Store), id ∉ createIds ops → PendInv id r st →
    PendInv id r (runOps st ops)
  | [], st => fun _ h => h
  | op :: ops, st => fun hmem h => by
    have hop : ∀ dev ip nid n, op = StoreOp.opCreate dev ip nid n → nid ≠ id := by
      intro dev ip nid n he hne
      subst he
      subst hne
      exact hmem (by simp [createIds])
    have hmem2 : id ∉ createIds ops := by
      intro hin
      apply hmem
      cases op <;> simp [createIds, hin]
    exact runOps_pendInv hstat ops (applyOp st op) hmem2 (pendInv_applyOp op hstat hop h)

/-! ### Component lemmas for the store operations -/

theorem revokeToken_devices (st : Store) (t : JStr) : (revokeToken st t).devices = st.devices := by
  unfold revokeToken
  split <;> rfl

theorem revokeToken_secret (st : Store) (t : JStr) :
    (revokeToken st t).jwtSecret = st.jwtSecret := by
  unfold revokeToken
  split <;> rfl

theorem revokeToken_mem (st : Store) (t : JStr) : t ∈ (revokeToken st t).revokedTokens := by
  unfold revokeToken
  split
  · assumption
  · exact List.mem_append_right _ (by simp)

theorem revokeToken_append {st : Store} {t : JStr} (h : t ∉ st.revokedTokens) :
    (revokeToken st t).revokedTokens = st.revokedTokens ++ [t] := by
  unfold revokeToken
  rw [if_neg h]

theorem removeDevice_revoked (st : Store) (i : JStr) :
    ((removeDevice st i).2).revokedTokens = st.revokedTokens := by
  unfold removeDevice
  split <;> rfl

theorem removeDevice_secret (st : Store) (i : JStr) :
    ((removeDevice st i).2).jwtSecret = st.jwtSecret := by
  unfold removeDevice
  split <;> rfl

theorem removeDevice_self (st : Store) (i : JStr) :
    alGet ((removeDevice st i).2).devices i = none := by
  unfold removeDevice
  cases h : alGet st.devices i with
  | none => exact h
  | some d => exact alGet_alErase_self st.devices i

theorem expireRequest_revoked (st : Store) (rid : JStr) (n : Nat) :
    (expireRequest st rid n).revokedTokens = st.revokedTokens := by
  unfold expireRequest
  split
  · split <;> rfl
  · rfl

theorem verifyToken_revoked {st : Store} {t : JStr} (nowMs : Nat)
    (h : t ∈ st.revokedTokens) : verifyToken st t nowMs = ⟨false, none⟩ := by
  unfold verifyToken
  rw [if_pos h]

/-- If the token's payload names a device that is gone, verification fails. -/
theorem verifyToken_deviceGone {st : Store} {t : JStr} {nowMs : Nat} {pl : TokenPayload}
    {did : JStr} (hjwt : verifyJWT t st.jwtSecret nowMs = ⟨true, some pl⟩)
    (hdid : pl.deviceId = some did) (hdev : alGet st.devices did = none) :
    verifyToken st t nowMs = ⟨false, none⟩ := by
  unfold verifyToken
  split
  · rfl
  · rw [hjwt]
    show (match pl.deviceId with
      | some did2 =>
        match alGet st.devices did2 with
        | some _ => (⟨true, some did2⟩ : VerifyTokenResult)
        | none => ⟨false, none⟩
      | none => ⟨false, none⟩) = (⟨false, none⟩ : VerifyTokenResult)
    rw [hdid]
    simp [hdev]

/-- A freshly generated token for an existing, unrevoked device verifies. -/
theorem verifyToken_generateToken (st : Store) (did : JStr) (d : DeviceInfo)
    (nowMs now2Ms : Nat) (hdev : alGet st.devices did = some d)
    (hrev : generateToken st did nowMs ∉ st.revokedTokens) (hD : ByteOk did)
    (htime : now2Ms / 1000 ≤ nowMs / 1000 + 31536000) :
    verifyToken st (generateToken st did nowMs) now2Ms = ⟨true, some did⟩ := by
  unfold verifyToken
  rw [if_neg hrev]
  rw [show generateToken st did nowMs = generateJWT did st.jwtSecret nowMs 365 from rfl]
  rw [jwt_roundtrip did st.jwtSecret hD nowMs now2Ms htime]
  simp [hdev]

theorem revoked_mem_applyOp (st : Store) (op : StoreOp) {t : JStr}
    (h : t ∈ st.revokedTokens) : t ∈ (applyOp st op).revokedTokens := by
  cases op with
  | opAddDevice d => exact h
  | opUpdateDevice i u =>
    have e : (updateDevice st i u).revokedTokens = st.revokedTokens := by
      unfold updateDevice
      split <;> rfl
    show t ∈ (updateDevice st i u).revokedTokens
    rw [e]
    exact h
  | opUpdateLastSeen i ip n =>
    have e : (updateLastSeen st i ip n).revokedTokens = st.revokedTokens := by
      unfold updateLastSeen
      split <;> rfl
    show t ∈ (updateLastSeen st i ip n).revokedTokens
    rw [e]
    exact h
  | opRemoveDevice i =>
    show t ∈ ((removeDevice st i).2).revokedTokens
    rw [removeDevice_revoked]
    exact h
  | opRevokeToken t2 =>
    show t ∈ (revokeToken st t2).revokedTokens
    unfold revokeToken
    split
    · exact h
    · exact List.mem_append_left _ h
  | opRevokeAllExcept k => exact h
  | opCreate dev ip newId n => exact h
  | opGet rid n =>
    show t ∈ ((getPendingRequest st rid n).2).revokedTokens
    unfold getPendingRequest
    split
    · exact h
    · split
      · rw [expireRequest_revoked]
        exact h
      · exact h
  | opList n => exact h
  | opApprove rid did n =>
    show t ∈ ((approveRequest st rid did n).2).revokedTokens
    unfold approveRequest
    split
    · exact h
    · split
      · exact h
      · split
        · rw [expireRequest_revoked]
          exact h
        · exact h
  | opDeny rid n =>
    show t ∈ ((denyRequest st rid n).2).revokedTokens
    unfold denyRequest
    split
    · exact h
    · split
      · exact h
      · exact h

theorem revoked_mem_runOps : ∀ (ops : List StoreOp) (st : Store) {t : JStr},
    t ∈ st.revokedTokens → t ∈ (runOps st ops).revokedTokens
  | [], _ => fun h => h
  | op :: ops, st => fun h =>
    revoked_mem_runOps ops (applyOp st op) (revoked_mem_applyOp st op h)

/-! ### Filter lemmas for revokeAllExcept -/

theorem filter_keys_singleton {α : Type} : ∀ (m : List (JStr × α)) (keep : JStr) (d : α),
    NodupKeys m → alGet m keep = some d →
    m.filter (fun p => decide (p.1 = keep)) = [(keep, d)]
  | [], keep, d => by simp [alGet]
  | (k, w) :: t, keep, d => fun hnd h => by
    have hp := List.nodup_cons.mp hnd
    by_cases hk : k = keep
    · subst hk
      simp only [alGet, eq_self_iff_true, if_true, Option.some.injEq] at h
      subst h
      simp only [List.filter_cons, decide_eq_true_eq, eq_self_iff_true, if_true]
      have e : t.filter (fun p => decide (p.1 = k)) = [] := by
        rw [List.filter_eq_nil_iff]
        intro p hmem
        simp only [decide_eq_true_eq]
        intro e2
        have hmk : p.1 ∈ t.map Prod.fst := List.mem_map_of_mem Prod.fst hmem
        rw [e2] at hmk
        exact hp.1 hmk
      rw [e]
    · simp only [alGet, if_neg hk] at h
      simp only [List.filter_cons]
      have e : (decide (k = keep)) = false := by simp [hk]
      rw [e]
      simp only [Bool.false_eq_true, if_false]
      exact filter_keys_singleton t keep d hp.2 h

theorem filter_keys_ne_length {α : Type} : ∀ (m : List (JStr × α)) (keep : JStr) (d : α),
    NodupKeys m → alGet m keep = some d →
    (m.filter (fun p => decide (p.1 ≠ keep))).length = m.length - 1
  | [], keep, d => by simp [alGet]
  | (k, w) :: t, keep, d => fun hnd h => by
    have hp := List.nodup_cons.mp hnd
    simp only [List.filter_cons]
    by_cases hk : k = keep
    · subst hk
      have hc : (decide ((k, w).1 ≠ k)) = false := by simp
      rw [hc]
      simp only [Bool.false_eq_true, if_false]
      have e : t.filter (fun p => decide (p.1 ≠ k)) = t := by
        rw [List.filter_eq_self]
        intro p hmem
        simp only [ne_eq, decide_eq_true_eq]
        intro e2
        have hmk : p.1 ∈ t.map Prod.fst := List.mem_map_of_mem Prod.fst hmem
        rw [e2] at hmk
        exact hp.1 hmk
      rw [e]
      simp
    · have hc : (decide ((k, w).1 ≠ keep)) = true := by simp [hk]
      rw [hc]
      simp only [if_true]
      simp only [alGet, if_neg hk] at h
      have hlen : 1 ≤ t.length := by
        cases t with
        | nil => simp [alGet] at h
        | cons a b => simp
      have ih := filter_keys_ne_length t keep d hp.2 h
      simp only [List.length_cons, ih]
      omega

/-! ### Digit-count lemmas for the access code -/

theorem natDec_len_le6 {n : Nat} (h : n < 1000000) : (natDec n).length ≤ 6 := by
  unfold natDec
  split
  · simp
  · rw [List.length_map, List.length_reverse]
    next hn =>
    rw [Nat.digits_len 10 n (by norm_num) hn]
    have hlog : Nat.log 10 n < 6 := Nat.log_lt_of_lt_pow hn (by norm_num; exact h)
    omega

theorem padStart6_length {s : JStr} (h : s.length ≤ 6) : (padStart6 s).length = 6 := by
  unfold padStart6
  rw [List.length_append, List.length_replicate]
  omega

/-! ## The claims -/

/-- Claim C5: verifying a token produced by generateJWT({deviceId}, secret)
against the same secret, at any time before the token's encoded expiry,
returns valid=true with a payload whose deviceId equals the deviceId that
was signed. -/
theorem claim_C5 (deviceId secret : JStr) (hD : ByteOk deviceId) (nowMs now2Ms : Nat)
    (hbefore : now2Ms / 1000 < nowMs / 1000 + 31536000) :
    verifyJWT (generateJWT deviceId secret nowMs 365) secret now2Ms =
      ⟨true, some ⟨some deviceId, some ((nowMs / 1000 : Nat) : Int),
        some ((nowMs / 1000 + 31536000 : Nat) : Int)⟩⟩ :=
  jwt_roundtrip deviceId secret hD nowMs now2Ms (Nat.le_of_lt hbefore)

/-- Witness for C5 at deviceId "ab", secret "sec", issue time 0, check
time 1s. -/
theorem claim_C5_witness :
    verifyJWT (generateJWT (ascii ("ab")) (ascii ("sec")) 0 365) (ascii ("sec")) 1000 =
      ⟨true, some ⟨some (ascii ("ab")), some ((0 / 1000 : Nat) : Int),
        some ((0 / 1000 + 31536000 : Nat) : Int)⟩⟩ :=
  claim_C5 (ascii ("ab")) (ascii ("sec")) (by decide) 0 1000 (by norm_num)

theorem verifyJWT_split_eq (token secret : JStr) (nowMs : Nat) (hB pB sg : JStr)
    (hsp : splitOnDot token = [hB, pB, sg]) :
    verifyJWT token secret nowMs =
      (if sg ≠ createHmacSignature (hB ++ [46] ++ pB) secret then ⟨false, none⟩
       else
         match parsePayload (base64UrlDecode pB) with
         | none => ⟨false, none⟩
         | some payload =>
           if expTruthyLt payload.exp (nowMs / 1000) then ⟨false, none⟩
           else ⟨true, some payload⟩) := by
  unfold verifyJWT
  rw [hsp]

theorem verifyJWT_shape (token secret : JStr) (nowMs : Nat) :
    verifyJWT token secret nowMs = ⟨false, none⟩ ∨
      ∃ pl, verifyJWT token secret nowMs = ⟨true, some pl⟩ := by
  unfold verifyJWT
  split
  · split
    · exact Or.inl rfl
    · split
      · exact Or.inl rfl
      · split
        · exact Or.inl rfl
        · exact Or.inr ⟨_, rfl⟩
  · exact Or.inl rfl

/-- Claim C4 (amended): verifyJWT is total and fails closed on a wrong part
count, on a signature mismatch, and on an elapsed expiry whenever the
encoded exp is nonzero; a zero exp is treated as absent by the JS
truthiness guard and skips the expiry check (see the counterexample). -/
theorem claim_C4 (token secret : JStr) (nowMs : Nat) :
    (verifyJWT token secret nowMs = ⟨false, none⟩ ∨
      ∃ pl, verifyJWT token secret nowMs = ⟨true, some pl⟩) ∧
    ((splitOnDot token).length ≠ 3 → verifyJWT token secret nowMs = ⟨false, none⟩) ∧
    (∀ hB pB sg, splitOnDot token = [hB, pB, sg] →
      sg ≠ createHmacSignature (hB ++ [46] ++ pB) secret →
      verifyJWT token secret nowMs = ⟨false, none⟩) ∧
    (∀ hB pB sg pl e, splitOnDot token = [hB, pB, sg] →
      parsePayload (base64UrlDecode pB) = some pl → pl.exp = some e → e ≠ 0 →
      e < ((nowMs / 1000 : Nat) : Int) → verifyJWT token secret nowMs = ⟨false, none⟩) := by
  refine ⟨verifyJWT_shape token secret nowMs, ?_, ?_, ?_⟩
  · intro hlen
    unfold verifyJWT
    split
    · next hB pB sg heq =>
      exact absurd (by rw [heq]; rfl) hlen
    · rfl
  · intro hB pB sg hsp hne
    rw [verifyJWT_split_eq token secret nowMs hB pB sg hsp, if_pos hne]
  · intro hB pB sg pl e hsp hparse hexp hnz hlt
    rw [verifyJWT_split_eq token secret nowMs hB pB sg hsp]
    by_cases hsig : sg ≠ createHmacSignature (hB ++ [46] ++ pB) secret
    · rw [if_pos hsig]
    · rw [if_neg hsig, hparse]
      have htr : expTruthyLt pl.exp (nowMs / 1000) = true := by
        rw [hexp]
        simp only [expTruthyLt, Bool.and_eq_true, decide_eq_true_eq]
        exact ⟨hnz, hlt⟩
      simp [htr]

/-- Witness for C4 on a garbage token with no dots at all. -/
theorem claim_C4_witness :
    (splitOnDot (ascii ("garbage"))).length ≠ 3 ∧
      verifyJWT (ascii ("garbage")) (ascii ("k")) 5 = ⟨false, none⟩ :=
  ⟨by decide, (claim_C4 (ascii ("garbage")) (ascii ("k")) 5).2.1 (by decide)⟩

/-- Counterexample for C4 as stated: a well-signed token whose encoded
expiry is 0 — a timestamp in the past at verification time 5s — still
verifies, because "payload.exp && ..." is falsy for 0. -/
theorem claim_C4_counterexample :
    verifyJWT
        (headerB64 ++ [46] ++ base64UrlEncode (renderPayload (ascii ("a")) 0 0) ++ [46] ++
          createHmacSignature
            (headerB64 ++ [46] ++ base64UrlEncode (renderPayload (ascii ("a")) 0 0)) (ascii ("k")))
        (ascii ("k")) 5000 =
      ⟨true, some ⟨some (ascii ("a")), some 0, some 0⟩⟩ ∧
    (0 : Int) < ((5000 / 1000 : Nat) : Int) := by
  constructor
  · rw [verifyJWT_parts headerB64 (base64UrlEncode (renderPayload (ascii ("a")) 0 0))
      (createHmacSignature
        (headerB64 ++ [46] ++ base64UrlEncode (renderPayload (ascii ("a")) 0 0)) (ascii ("k")))
      (ascii ("k")) 5000 (notMem46_base64UrlEncode _) (notMem46_base64UrlEncode _)
      (notMem46_base64UrlEncode _)]
    rw [if_neg (by simp)]
    rw [base64_roundtrip (renderPayload (ascii ("a")) 0 0) (byteok_renderPayload (by decide) 0 0)]
    rw [parsePayload_render (ascii ("a")) (by decide) 0 0]
    rfl
  · decide

/-- Claim C8: the access code is always exactly 6 decimal digits, depends
only on the signing secret, and differs for some pairs of secrets. -/
theorem claim_C8 :
    (∀ st : Store, (getAccessCode st).length = 6 ∧
      (getAccessCode st).all (fun b => decide (48 ≤ b) && decide (b ≤ 57)) = true ∧
      ∀ st2 : Store, st2.jwtSecret = st.jwtSecret → getAccessCode st2 = getAccessCode st) ∧
    (∃ st1 st2 : Store, getAccessCode st1 ≠ getAccessCode st2) := by
  constructor
  · intro st
    refine ⟨?_, ?_, ?_⟩
    · exact padStart6_length (natDec_len_le6 (Nat.mod_lt _ (by norm_num)))
    · apply List.all_eq_true.mpr
      intro b hb
      unfold getAccessCode padStart6 at hb
      rcases List.mem_append.mp hb with h | h
      · rw [List.eq_of_mem_replicate h]
        decide
      · exact natDec_digits _ b h
    · intro st2 he
      unfold getAccessCode
      rw [he]
  · refine ⟨⟨[], [], [], ascii ("x")⟩, ⟨[], [], [], ascii ("y")⟩, ?_⟩
    have hn1 : parseHexNat ((hexDigest (sha256 (ascii ("x")))).take 12) % 1000000 = 25382 := by
      decide
    have hn2 : parseHexNat ((hexDigest (sha256 (ascii ("y")))).take 12) % 1000000 = 589140 := by
      decide
    have e1 : getAccessCode ⟨[], [], [], ascii ("x")⟩ = [48, 50, 53, 51, 56, 50] := by
      show padStart6 (natDec (parseHexNat ((hexDigest (sha256 (ascii ("x")))).take 12) %
        1000000)) = _
      rw [hn1]
      norm_num [natDec, padStart6]
    have e2 : getAccessCode ⟨[], [], [], ascii ("y")⟩ = [53, 56, 57, 49, 52, 48] := by
      show padStart6 (natDec (parseHexNat ((hexDigest (sha256 (ascii ("y")))).take 12) %
        1000000)) = _
      rw [hn2]
      norm_num [natDec, padStart6]
    rw [e1, e2]
    decide

/-- Witness for C8: the 6-digit shape at a concrete store, and stability
across two stores sharing a secret. -/
theorem claim_C8_witness :
    (getAccessCode ⟨[], [], [], ascii ("x")⟩).length = 6 ∧
      getAccessCode ⟨[], [(ascii ("r"), ⟨ascii ("r"), ⟨[], [], []⟩, [], ReqStatus.denied, 0,
        some 1, none, none⟩)], [], ascii ("x")⟩ =
        getAccessCode ⟨[], [], [], ascii ("x")⟩ := by
  constructor
  · exact (claim_C8.1 ⟨[], [], [], ascii ("x")⟩).1
  · exact (claim_C8.1 ⟨[], [], [], ascii ("x")⟩).2.2 _ rfl

/-- Claim C9: once revokeToken(t) runs, t is in the persisted revokedTokens
list, it stays revoked under any further operation sequence so verifyToken
always rejects it, and a first revocation appends t to the list. -/
theorem claim_C9 (st : Store) (t : JStr) (ops : List StoreOp) (nowMs : Nat) :
    t ∈ (revokeToken st t).revokedTokens ∧
    verifyToken (runOps (revokeToken st t) ops) t nowMs = ⟨false, none⟩ ∧
    (t ∉ st.revokedTokens →
      (revokeToken st t).revokedTokens = st.revokedTokens ++ [t]) :=
  ⟨revokeToken_mem st t,
    verifyToken_revoked nowMs (revoked_mem_runOps ops _ (revokeToken_mem st t)),
    fun h => revokeToken_append h⟩

/-- Witness for C9 on an empty store and token "t". -/
theorem claim_C9_witness :
    ascii ("t") ∈ (revokeToken ⟨[], [], [], ascii ("s")⟩ (ascii ("t"))).revokedTokens ∧
    verifyToken (runOps (revokeToken ⟨[], [], [], ascii ("s")⟩ (ascii ("t"))) []) (ascii ("t")) 0 =
      ⟨false, none⟩ ∧
    (revokeToken ⟨[], [], [], ascii ("s")⟩ (ascii ("t"))).revokedTokens = [] ++ [ascii ("t")] :=
  ⟨(claim_C9 ⟨[], [], [], ascii ("s")⟩ (ascii ("t")) [] 0).1,
    (claim_C9 ⟨[], [], [], ascii ("s")⟩ (ascii ("t")) [] 0).2.1,
    (claim_C9 ⟨[], [], [], ascii ("s")⟩ (ascii ("t")) [] 0).2.2 (by decide)⟩

/-- Claim C7: when the caller's device is present (under unique device ids),
revokeAllExcept leaves exactly that device and returns the number of devices
removed. -/
theorem claim_C7 (st : Store) (keep : JStr) (d : DeviceInfo)
    (hnd : NodupKeys st.devices) (hmem : alGet st.devices keep = some d) :
    (revokeAllExcept st keep).2.devices = [(keep, d)] ∧
    (revokeAllExcept st keep).1 = st.devices.length - 1 := by
  constructor
  · show st.devices.filter (fun p => decide (p.1 = keep)) = [(keep, d)]
    exact filter_keys_singleton st.devices keep d hnd hmem
  · show (st.devices.filter (fun p => decide (p.1 ≠ keep))).length = st.devices.length - 1
    exact filter_keys_ne_length st.devices keep d hnd hmem

/-- Witness for C7 on a two-device store keeping device "a". -/
theorem claim_C7_witness :
    (revokeAllExcept stC7 (ascii ("a"))).2.devices = [(ascii ("a"), devC7a)] ∧
    (revokeAllExcept stC7 (ascii ("a"))).1 = stC7.devices.length - 1 :=
  claim_C7 stC7 (ascii ("a")) devC7a (show (stC7.devices.map Prod.fst).Nodup by decide)
    (by decide)

/-- Claim C6: a successful logout with a valid token deletes the device,
the presented token then fails verifyToken forever, and any other
well-signed token naming that deviceId also fails, because verification
re-checks device existence. -/
theorem claim_C6 (st : Store) (tok did : JStr) (nowMs : Nat)
    (h : verifyToken st tok nowMs = ⟨true, some did⟩) :
    (logoutHandler (some tok) nowMs st).1 = ApiResp.ok ∧
    alGet ((logoutHandler (some tok) nowMs st).2).devices did = none ∧
    (∀ now2, verifyToken ((logoutHandler (some tok) nowMs st).2) tok now2 = ⟨false, none⟩) ∧
    (∀ t2 now2 pl,
      verifyJWT t2 ((logoutHandler (some tok) nowMs st).2).jwtSecret now2 = ⟨true, some pl⟩ →
      pl.deviceId = some did →
      verifyToken ((logoutHandler (some tok) nowMs st).2) t2 now2 = ⟨false, none⟩) := by
  have hL : logoutHandler (some tok) nowMs st =
      (ApiResp.ok, (removeDevice (revokeToken st tok) did).2) := by
    simp only [logoutHandler, h]
  refine ⟨?_, ?_, ?_, ?_⟩
  · rw [hL]
  · rw [hL]
    exact removeDevice_self (revokeToken st tok) did
  · intro now2
    rw [hL]
    apply verifyToken_revoked
    rw [removeDevice_revoked]
    exact revokeToken_mem st tok
  · intro t2 now2 pl hjwt hdid
    rw [hL] at hjwt ⊢
    exact verifyToken_deviceGone hjwt hdid (removeDevice_self (revokeToken st tok) did)

/-- Witness for C6: log out the one device with a freshly minted token. -/
theorem claim_C6_witness :
    (logoutHandler (some (generateToken stC6 (ascii ("aa")) 0)) 0 stC6).1 = ApiResp.ok ∧
    alGet ((logoutHandler (some (generateToken stC6 (ascii ("aa")) 0)) 0 stC6).2).devices
      (ascii ("aa")) = none ∧
    verifyToken ((logoutHandler (some (generateToken stC6 (ascii ("aa")) 0)) 0 stC6).2)
      (generateToken stC6 (ascii ("aa")) 0) 5 = ⟨false, none⟩ := by
  have h := claim_C6 stC6 (generateToken stC6 (ascii ("aa")) 0) (ascii ("aa")) 0
    (verifyToken_generateToken stC6 (ascii ("aa")) devC6 0 0 (by decide)
      (show generateToken stC6 (ascii ("aa")) 0 ∉ ([] : List JStr) by simp) (by decide)
      (by omega))
  exact ⟨h.1, h.2.1, h.2.2.1 5⟩

/-- Claim C1: a verify-code call from an IP that, after stripping the
IPv4-mapped prefix, is none of the three local notations is rejected with
403 and leaves the store unchanged; a local call whose code matches the
stored access code creates an isHost=true device and returns
{token, deviceId, device}. -/
theorem claim_C1 (clientIp newDeviceId : JStr) (nowMs : Nat) (st : Store) :
    (∀ body authCode, stripV4Mapped clientIp ≠ ascii ("127.0.0.1") →
      stripV4Mapped clientIp ≠ ascii ("::1") → stripV4Mapped clientIp ≠ ascii ("localhost") →
      verifyCodeHandler clientIp body authCode newDeviceId nowMs st = (ApiResp.err 403, st)) ∧
    (∀ b validCode, isLocalhost clientIp = true → b.code = some validCode →
      verifyCodeHandler clientIp (some b) (some validCode) newDeviceId nowMs st =
        (ApiResp.authOk (generateToken st newDeviceId nowMs) newDeviceId
          (verifiedDevice b clientIp newDeviceId nowMs),
         addDevice st (verifiedDevice b clientIp newDeviceId nowMs))) := by
  constructor
  · intro body authCode h1 h2 h3
    have hn : isLocalhost clientIp = false := by
      simp [isLocalhost, h1, h2, h3]
    have hcond : ¬ (isLocalhost clientIp = true) := by simp [hn]
    unfold verifyCodeHandler
    rw [if_pos hcond]
  · intro b validCode hloc hcode
    have hcond : ¬ ¬ (isLocalhost clientIp = true) := by simp [hloc]
    unfold verifyCodeHandler
    rw [if_neg hcond]
    show (if b.code = some validCode then
        (ApiResp.authOk (generateToken st newDeviceId nowMs) newDeviceId
          (verifiedDevice b clientIp newDeviceId nowMs),
         addDevice st (verifiedDevice b clientIp newDeviceId nowMs))
      else (ApiResp.err 401, st)) = _
    rw [if_pos hcode]

/-- Witness for C1: a public IP is rejected; a loopback caller with the
matching code gets a device and token. -/
theorem claim_C1_witness :
    verifyCodeHandler (ascii ("203.0.113.9")) none none (ascii ("d1")) 0
      ⟨[], [], [], ascii ("sec")⟩ = (ApiResp.err 403, ⟨[], [], [], ascii ("sec")⟩) ∧
    verifyCodeHandler (ascii ("127.0.0.1")) (some bodyC1) (some (ascii ("123456"))) (ascii ("d1"))
      0 ⟨[], [], [], ascii ("sec")⟩ =
      (ApiResp.authOk (generateToken ⟨[], [], [], ascii ("sec")⟩ (ascii ("d1")) 0) (ascii ("d1"))
        (verifiedDevice bodyC1 (ascii ("127.0.0.1")) (ascii ("d1")) 0),
       addDevice ⟨[], [], [], ascii ("sec")⟩
         (verifiedDevice bodyC1 (ascii ("127.0.0.1")) (ascii ("d1")) 0)) :=
  ⟨(claim_C1 (ascii ("203.0.113.9")) (ascii ("d1")) 0 ⟨[], [], [], ascii ("sec")⟩).1 none none
      (by decide) (by decide) (by decide),
   (claim_C1 (ascii ("127.0.0.1")) (ascii ("d1")) 0 ⟨[], [], [], ascii ("sec")⟩).2 bodyC1
      (ascii ("123456")) (by decide) (by decide)⟩

/-- Claim C2 (amended): in the scripts store, reading a pending request
after the 2-minute window via getPendingRequest (and hence check-status)
lazily flips it to expired and reports expired; the Electron store's
getPendingRequest performs no such lazy expiry (see the counterexample). -/
theorem claim_C2 (st : Store) (rid : JStr) (r : PendingRequest) (nowMs : Nat)
    (hget : alGet st.pendingRequests rid = some r) (hp : r.status = ReqStatus.pending)
    (hexp : REQUEST_EXPIRY_MS < nowMs - r.createdAt) :
    (getPendingRequest st rid nowMs).1 =
      some { r with status := ReqStatus.expired, resolvedAt := some nowMs } ∧
    (checkStatusHandler (some rid) nowMs st).1 = ApiResp.statusOf ReqStatus.expired := by
  have hexpB : isRequestExpired r nowMs = true := by
    simp [isRequestExpired, hp, hexp]
  have hst2 : expireRequest st rid nowMs = { st with pendingRequests := alSet st.pendingRequests rid ({ r with status := ReqStatus.expired, resolvedAt := some nowMs }) } := by
    unfold expireRequest
    rw [hget]
    show (if r.status = ReqStatus.pending then { st with pendingRequests := alSet st.pendingRequests rid ({ r with status := ReqStatus.expired, resolvedAt := some nowMs }) } else st) = _
    rw [if_pos hp]
  have hfull : getPendingRequest st rid nowMs = (some { r with status := ReqStatus.expired, resolvedAt := some nowMs }, { st with pendingRequests := alSet st.pendingRequests rid ({ r with status := ReqStatus.expired, resolvedAt := some nowMs }) }) := by
    unfold getPendingRequest
    rw [hget]
    show (if isRequestExpired r nowMs then
        (alGet (expireRequest st rid nowMs).pendingRequests rid, expireRequest st rid nowMs)
      else (some r, st)) = _
    rw [if_pos hexpB, hst2]
    show (alGet (alSet st.pendingRequests rid ({ r with status := ReqStatus.expired, resolvedAt := some nowMs })) rid, ({ st with pendingRequests := alSet st.pendingRequests rid ({ r with status := ReqStatus.expired, resolvedAt := some nowMs }) } : Store)) = _
    rw [alGet_alSet_self]
  constructor
  · rw [hfull]
  · simp only [checkStatusHandler]
    rw [hfull]
    rfl

/-- Witness for C2 on a request created at 0 and read at 121s. -/
theorem claim_C2_witness :
    (getPendingRequest stC2 (ascii ("r1")) 121000).1 =
      some { rC2 with status := ReqStatus.expired, resolvedAt := some 121000 } ∧
    (checkStatusHandler (some (ascii ("r1"))) 121000 stC2).1 =
      ApiResp.statusOf ReqStatus.expired :=
  claim_C2 stC2 (ascii ("r1")) rC2 121000 (by decide) (by decide) (by decide)

/-- Counterexample for C2 as stated: the Electron device store's
getPendingRequest does no lazy expiry, so a pending request read well past
the 2-minute window is still reported with status pending. -/
theorem claim_C2_counterexample :
    electronGetPendingRequest stC2 (ascii ("r1")) = some rC2 ∧
    rC2.status = ReqStatus.pending ∧
    REQUEST_EXPIRY_MS < 121000 - rC2.createdAt := by
  decide

/-- Claim C3: the PendingRequest status machine is one-way.  Under any
operation sequence whose fresh create-ids avoid id (unique random ids), a
request already terminal keeps its status; approve and deny on a terminal
request return the (none, unchanged-store) failure, so no device is
created. -/
theorem claim_C3 (st : Store) (ops : List StoreOp) (id : JStr) (r r2 : PendingRequest)
    (newDeviceId : JStr) (nowMs : Nat) :
    (NodupKeys st.pendingRequests → id ∉ createIds ops →
      alGet st.pendingRequests id = some r → r.status ≠ ReqStatus.pending →
      alGet (runOps st ops).pendingRequests id = some r2 → r2.status = r.status) ∧
    (alGet st.pendingRequests id = some r → r.status ≠ ReqStatus.pending →
      approveRequest st id newDeviceId nowMs = (none, st)) ∧
    (alGet st.pendingRequests id = some r → r.status ≠ ReqStatus.pending →
      denyRequest st id nowMs = (none, st)) := by
  refine ⟨?_, ?_, ?_⟩
  · intro hnd hid hget hterm hget2
    have hinv := runOps_pendInv hterm ops st hid ⟨hnd, Or.inl hget⟩
    rcases hinv.2 with h | h
    · rw [hget2] at h
      injection h with h2
      rw [h2]
    · rw [hget2] at h
      exact absurd h (by simp)
  · intro hget hterm
    unfold approveRequest
    rw [hget]
    exact if_pos hterm
  · intro hget hterm
    unfold denyRequest
    rw [hget]
    exact if_pos hterm

/-- Witness for C3: a denied request survives a get/deny/list sequence
unchanged, and approve/deny on it fail without touching the store. -/
theorem claim_C3_witness :
    alGet (runOps stC3 opsC3).pendingRequests (ascii ("r1")) = some rC3 ∧
    rC3.status = rC3.status ∧
    approveRequest stC3 (ascii ("r1")) (ascii ("d9")) 130003 = (none, stC3) ∧
    denyRequest stC3 (ascii ("r1")) 130003 = (none, stC3) :=
  ⟨by decide,
   (claim_C3 stC3 opsC3 (ascii ("r1")) rC3 rC3 (ascii ("d9")) 130003).1
     (show (stC3.pendingRequests.map Prod.fst).Nodup by decide) (by decide) (by decide)
     (by decide) (by decide),
   (claim_C3 stC3 opsC3 (ascii ("r1")) rC3 rC3 (ascii ("d9")) 130003).2.1 (by decide) (by decide),
   (claim_C3 stC3 opsC3 (ascii ("r1")) rC3 rC3 (ascii ("d9")) 130003).2.2 (by decide) (by decide)⟩

/-- Claim C10: a successful rename replaces the target's name with the
trimmed supplied name and nothing else: the returned device is the target
with only its name field updated, every other device entry is untouched,
and the pending requests, revoked tokens and secret are unchanged. -/
theorem claim_C10 (st : Store) (targetId tok n : JStr) (nowMs : Nat) (d : DeviceInfo)
    (hval : (verifyToken st tok nowMs).valid = true) (hne : n ≠ [])
    (htrim : (trimBytes n).length ≠ 0) (hdev : alGet st.devices targetId = some d) :
    (renameHandler targetId (some tok) (some (some n)) nowMs st).1 =
      ApiResp.okDevice (some (mergeDevice d (namePatch (trimBytes n)))) ∧
    mergeDevice d (namePatch (trimBytes n)) = { d with name := trimBytes n } ∧
    alGet ((renameHandler targetId (some tok) (some (some n)) nowMs st).2).devices targetId =
      some (mergeDevice d (namePatch (trimBytes n))) ∧
    (∀ k, k ≠ targetId →
      alGet ((renameHandler targetId (some tok) (some (some n)) nowMs st).2).devices k =
        alGet st.devices k) ∧
    ((renameHandler targetId (some tok) (some (some n)) nowMs st).2).pendingRequests =
      st.pendingRequests ∧
    ((renameHandler targetId (some tok) (some (some n)) nowMs st).2).revokedTokens =
      st.revokedTokens ∧
    ((renameHandler targetId (some tok) (some (some n)) nowMs st).2).jwtSecret =
      st.jwtSecret := by
  have hupd : updateDevice st targetId (namePatch (trimBytes n)) = { st with devices := alSet st.devices targetId (mergeDevice d (namePatch (trimBytes n))) } := by
    unfold updateDevice
    rw [hdev]
  have hL : renameHandler targetId (some tok) (some (some n)) nowMs st = (ApiResp.okDevice (some (mergeDevice d (namePatch (trimBytes n)))), { st with devices := alSet st.devices targetId (mergeDevice d (namePatch (trimBytes n))) }) := by
    have hv : ¬ ((verifyToken st tok nowMs).valid = false) := by simp [hval]
    have hgd : getDevice st targetId = some d := hdev
    have hcond : ¬ (n = [] ∨ (trimBytes n).length = 0) := by simp [hne, htrim]
    simp only [renameHandler]
    rw [if_neg hv, if_neg hcond, hgd]
    show (ApiResp.okDevice (getDevice (updateDevice st targetId (namePatch (trimBytes n))) targetId), updateDevice st targetId (namePatch (trimBytes n))) = _
    rw [hupd]
    rw [show getDevice ({ st with devices := alSet st.devices targetId (mergeDevice d (namePatch (trimBytes n))) } : Store) targetId = some (mergeDevice d (namePatch (trimBytes n))) from alGet_alSet_self st.devices targetId (mergeDevice d (namePatch (trimBytes n)))]
  refine ⟨?_, rfl, ?_, ?_, ?_, ?_, ?_⟩
  · rw [hL]
  · rw [hL]
    exact alGet_alSet_self st.devices targetId (mergeDevice d (namePatch (trimBytes n)))
  · intro k hk
    rw [hL]
    exact alGet_alSet_ne st.devices targetId k (mergeDevice d (namePatch (trimBytes n)))
      (Ne.symm hk)
  · rw [hL]
  · rw [hL]
  · rw [hL]

/-- Witness for C10: rename the one device to " New " (stored trimmed). -/
theorem claim_C10_witness :
    (renameHandler (ascii ("aa")) (some (generateToken stC10 (ascii ("aa")) 0))
        (some (some (ascii (" New ")))) 0 stC10).1 =
      ApiResp.okDevice (some (mergeDevice devC10 (namePatch (trimBytes (ascii (" New ")))))) ∧
    mergeDevice devC10 (namePatch (trimBytes (ascii (" New ")))) =
      { devC10 with name := trimBytes (ascii (" New ")) } ∧
    alGet ((renameHandler (ascii ("aa")) (some (generateToken stC10 (ascii ("aa")) 0))
        (some (some (ascii (" New ")))) 0 stC10).2).devices (ascii ("aa")) =
      some (mergeDevice devC10 (namePatch (trimBytes (ascii (" New "))))) ∧
    ((renameHandler (ascii ("aa")) (some (generateToken stC10 (ascii ("aa")) 0))
        (some (some (ascii (" New ")))) 0 stC10).2).pendingRequests = stC10.pendingRequests := by
  have hv : verifyToken stC10 (generateToken stC10 (ascii ("aa")) 0) 0 =
      ⟨true, some (ascii ("aa"))⟩ :=
    verifyToken_generateToken stC10 (ascii ("aa")) devC10 0 0 (by decide)
      (show generateToken stC10 (ascii ("aa")) 0 ∉ ([] : List JStr) by simp) (by decide)
      (by omega)
  have hval : (verifyToken stC10 (generateToken stC10 (ascii ("aa")) 0) 0).valid = true := by
    rw [hv]
  have h := claim_C10 stC10 (ascii ("aa")) (generateToken stC10 (ascii ("aa")) 0)
    (ascii (" New ")) 0 devC10 hval (by decide) (by decide) (by decide)
  exact ⟨h.1, h.2.1, h.2.2.1, h.2.2.2.2.1⟩
